import Mathlib

/-!
# Maestro bank: string formatting, debounce, HTTP wrapper and DOM query wrapper

A shallow embedding of the utility and core code of the banking demo UI
(`utils/format/format-card-number.js`, `utils/debounce.utils.js`,
`core/red-query/red-query.lib.js`, `core/rquery/rquery.lib.js`) together with
theorems about it.

JavaScript strings are sequences of UTF-16 code units; they are embedded as
lists of natural numbers, one per code unit, so that `length`, regular
expression matching without the `u` flag and `substring` count exactly what the
JavaScript code counts.
-/

namespace MaestroBank

/-! ## JavaScript strings -/

/-- A JavaScript string: the list of its UTF-16 code units. -/
abbrev JSString := List Nat

/-- The UTF-16 code units of one Unicode scalar value. -/
def utf16Char (c : Char) : List Nat :=
  if c.toNat < 65536 then [c.toNat]
  else [55296 + (c.toNat - 65536) / 1024, 56320 + (c.toNat - 65536) % 1024]

/-- The JavaScript string written by a Lean string literal. -/
def utf16 (s : String) : JSString := s.toList.flatMap utf16Char

/-- The code unit of `-`. -/
def dash : Nat := 45

/-- The code unit of the space character. -/
def space : Nat := 32

/-- The code unit of `.`. -/
def dot : Nat := 46

/-- The regular expression class `\d` (no `u` flag): the ASCII digits `0`..`9`. -/
def isDigit (c : Nat) : Bool := decide (48 ≤ c) && decide (c ≤ 57)

/-- The regular expression class `\s`: the ECMAScript `WhiteSpace` and
`LineTerminator` code points (TAB, LF, VT, FF, CR, SP, NBSP, U+1680,
U+2000..U+200A, LS, PS, U+202F, U+205F, U+3000, U+FEFF). -/
def isWhitespace (c : Nat) : Bool :=
  (decide (9 ≤ c) && decide (c ≤ 13)) || c == 32 || c == 160 || c == 5760 ||
  (decide (8192 ≤ c) && decide (c ≤ 8202)) || c == 8232 || c == 8233 ||
  c == 8239 || c == 8287 || c == 12288 || c == 65279

/-- The ECMAScript `LineTerminator` code points (LF, CR, LS, PS): the characters
that `.` does not match when the `s` flag is absent. -/
def isLineTerminator (c : Nat) : Bool :=
  c == 10 || c == 13 || c == 8232 || c == 8233

/-- The method `Array.prototype.join(sep)` on an array of strings. -/
def join (sep : JSString) : List JSString → JSString
  | [] => []
  | [g] => g
  | g :: h :: gs => g ++ sep ++ join sep (h :: gs)

/-! ## `utils/format/format-card-number.js` -/

/-- One match attempt of `/(\d{4})(?=\d)/` at the start of the input: four digits
followed by a fifth digit that the lookahead inspects and does not consume.
Returns the captured group `$1` and the input left after the match. -/
def matchFourDigitsAhead : JSString → Option (JSString × JSString)
  | a :: b :: c :: d :: e :: rest =>
    if isDigit a && isDigit b && isDigit c && isDigit d && isDigit e then
      some ([a, b, c, d], e :: rest)
    else none
  | _ => none

/-- The loop of `String.prototype.replace(/(\d{4})(?=\d)/g, '$1-')`: at each
position, a match is replaced by its group followed by a dash and scanning
resumes after the match; otherwise the code unit is copied and scanning moves
on by one. `fuel` bounds the number of positions visited. -/
def replaceFourDigits : Nat → JSString → JSString
  | 0, s => s
  | _ + 1, [] => []
  | fuel + 1, c :: rest =>
    match matchFourDigitsAhead (c :: rest) with
    | some (g, rem) => g ++ dash :: replaceFourDigits fuel rem
    | none => c :: replaceFourDigits fuel rest

/-- The function `formatCardNumberWithDashes(cardNumber)`:
`cardNumber.replace(/(\d{4})(?=\d)/g, '$1-')`. -/
def formatCardNumberWithDashes (cardNumber : JSString) : JSString :=
  replaceFourDigits cardNumber.length cardNumber

/-- The expression `cardNumber.replace(/\s/g, '')`: every whitespace code unit is
removed. -/
def removeWhitespace (s : JSString) : JSString :=
  s.filter (fun c => !isWhitespace c)

/-- One greedy match attempt of `.{1,n}` at the start of the input: the longest
run of at most `n` code units none of which is a line terminator, and the input
left after it. An empty run means that there is no match at this position. -/
def matchDotRun : Nat → JSString → JSString × JSString
  | 0, s => ([], s)
  | _ + 1, [] => ([], [])
  | n + 1, c :: rest =>
    if isLineTerminator c then ([], c :: rest)
    else ((c :: (matchDotRun n rest).1), (matchDotRun n rest).2)

/-- The loop of `String.prototype.match(/.{1,4}/g)`: the successive matches from
left to right. `fuel` bounds the number of positions visited. -/
def matchAllDotRuns : Nat → JSString → List JSString
  | 0, _ => []
  | _ + 1, [] => []
  | fuel + 1, c :: rest =>
    match matchDotRun 4 (c :: rest) with
    | ([], _) => matchAllDotRuns fuel rest
    | (m, rem) => m :: matchAllDotRuns fuel rem

/-- The expression `s.match(/.{1,4}/g)`: the array of all matches, or `null` when
there is none. -/
def matchDotGroups (s : JSString) : Option (List JSString) :=
  match matchAllDotRuns s.length s with
  | [] => none
  | ms => some ms

/-- The function `formatCardNumber(cardNumber)`. -/
def formatCardNumber (cardNumber : JSString) : JSString :=
  let formattedNumber := matchDotGroups (removeWhitespace cardNumber)
  match formattedNumber with
  | some groups => join [space] groups
  | none => []

/-! ## Specification vocabulary for grouping -/

/-- The string cut left to right into groups of `n` code units, the last group
holding what is left. `fuel` bounds the number of groups. -/
def cutGroups (n : Nat) : Nat → JSString → List JSString
  | 0, _ => []
  | _ + 1, [] => []
  | fuel + 1, c :: rest => (c :: rest).take n :: cutGroups n fuel ((c :: rest).drop n)

/-- The groups of four of a string, in order. -/
def groupsOfFour (s : JSString) : List JSString := cutGroups 4 s.length s

/-! ## `core/rquery/rquery.lib.js`: the input handler of `creditCardInput` -/

/-- The listener that `creditCardInput` installs for the `input` event, as a
function from `event.target.value` to the value written back:
`value.replace(/[^0-9.]/g, '')`, then `substring(0, limit)` with `limit = 16`,
then `formatCardNumberWithDashes`. -/
def creditCardInputHandler (targetValue : JSString) : JSString :=
  let limit := 16
  let value := targetValue.filter (fun c => isDigit c || c == dot)
  let value := if limit ≠ 0 then value.take limit else value
  formatCardNumberWithDashes value

/-! ## `utils/debounce.utils.js`

The timer facility of the host (`setTimeout`, `clearTimeout` and the event loop
that fires due timers) is explicit state. Time is in milliseconds. The payload
of a timer set by the debounced function is what its `later` closure captured:
the `this` value and the arguments of the call. -/

/-- A timer that was set and has neither fired nor been cleared. -/
structure Timer (A : Type) where
  id : Nat
  due : Nat
  payload : A
deriving DecidableEq, Repr

/-- The host's timers, its clock, and the log of the invocations of `fn`
(the time of the invocation and the `this` value and arguments passed). -/
structure TimerEnv (A : Type) where
  now : Nat
  nextId : Nat
  pending : List (Timer A)
  invoked : List (Nat × A)
deriving DecidableEq, Repr

/-- The timer queue is ordered by due time, and by age among equal due times. -/
def insertTimer {A : Type} (t : Timer A) : List (Timer A) → List (Timer A)
  | [] => [t]
  | u :: us => if u.due ≤ t.due then u :: insertTimer t us else t :: u :: us

/-- The call `setTimeout(later, delay)`: a fresh timer id is returned and the timer is
pending until `delay` milliseconds from now. -/
def setTimeout {A : Type} (env : TimerEnv A) (payload : A) (delay : Nat) : Nat × TimerEnv A :=
  (env.nextId,
    { env with
      nextId := env.nextId + 1
      pending := insertTimer ⟨env.nextId, env.now + delay, payload⟩ env.pending })

/-- The call `clearTimeout(id)`: the pending timer of that id, if any, is removed;
`clearTimeout(undefined)` does nothing. -/
def clearTimeout {A : Type} (env : TimerEnv A) : Option Nat → TimerEnv A
  | none => env
  | some i => { env with pending := env.pending.filter (fun t => t.id != i) }

/-- The event loop up to time `t`: every pending timer due by then fires, in queue
order, and firing the `later` closure invokes `fn` with the captured payload. -/
def runTimers {A : Type} (t : Nat) (env : TimerEnv A) : TimerEnv A :=
  { env with
    now := max env.now t
    pending := env.pending.filter (fun x => !decide (x.due ≤ t))
    invoked := env.invoked ++
      ((env.pending.filter (fun x => decide (x.due ≤ t))).map (fun x => (x.due, x.payload))) }

/-- The state of one function returned by `debounce(fn, wait)`: the host
environment and the closure variable `timeout` (`none` is `undefined`). -/
structure Debounced (A : Type) where
  env : TimerEnv A
  timeout : Option Nat
deriving DecidableEq, Repr

/-- The state right after `debounce(fn, wait)` returned: no timer was set yet.
Timer ids are positive integers. -/
def debounce (A : Type) : Debounced A :=
  { env := { now := 0, nextId := 1, pending := [], invoked := [] }, timeout := none }

/-- One call of the debounced function:
`clearTimeout(timeout); timeout = setTimeout(later, wait)`. -/
def Debounced.call {A : Type} (wait : Nat) (d : Debounced A) (payload : A) : Debounced A :=
  let env1 := clearTimeout d.env d.timeout
  let r := setTimeout env1 payload wait
  { env := r.2, timeout := some r.1 }

/-- What happens to a debounced function: it is called, or time passes. -/
inductive Action (A : Type) where
  | call (payload : A)
  | elapse (time : Nat)
deriving DecidableEq, Repr

/-- One action on the state of a debounced function. -/
def Debounced.step {A : Type} (wait : Nat) (d : Debounced A) : Action A → Debounced A
  | .call payload => d.call wait payload
  | .elapse t => { d with env := runTimers t d.env }

/-- A sequence of actions, from left to right. -/
def Debounced.exec {A : Type} (wait : Nat) (d : Debounced A) (acts : List (Action A)) :
    Debounced A :=
  acts.foldl (Debounced.step wait) d

/-- The actions of a sequence of timed calls: the clock reaches the time of each
call, then the call is made. -/
def timedCalls {A : Type} (calls : List (Nat × A)) : List (Action A) :=
  calls.flatMap (fun c => [Action.elapse c.1, Action.call c.2])

/-- Two consecutive calls of a burst: the second comes after the first and less
than `wait` after it. -/
def InBurst {A : Type} (wait : Nat) (c d : Nat × A) : Prop :=
  c.1 ≤ d.1 ∧ d.1 < c.1 + wait

instance {A : Type} (wait : Nat) : DecidableRel (InBurst (A := A) wait) :=
  fun c d => inferInstanceAs (Decidable (c.1 ≤ d.1 ∧ d.1 < c.1 + wait))

/-- The state in the middle of a burst: exactly one timer is pending, it is the
one the closure variable names, it is due `wait` after the latest call, and
`fn` was not invoked yet. -/
def BurstState {A : Type} (wait : Nat) (d : Debounced A) (c : Nat × A) : Prop :=
  ∃ i, d.env.pending = [⟨i, c.1 + wait, c.2⟩] ∧ d.timeout = some i ∧
    d.env.invoked = [] ∧ d.env.now = c.1

/-- At most one timer is pending, and the closure variable names it. -/
def AtMostOnePending {A : Type} (d : Debounced A) : Prop :=
  d.env.pending.length ≤ 1 ∧ ∀ t ∈ d.env.pending, d.timeout = some t.id

/-! ## Effects

A computation that reads and changes a state and either returns or throws.
The state changes made before a throw are kept, as in JavaScript. -/

/-- A stateful computation that returns a value or throws. -/
def Eff (σ ε α : Type) : Type := σ → Except ε α × σ

/-- Return a value. -/
def Eff.pure {σ ε α : Type} (a : α) : Eff σ ε α := fun s => (.ok a, s)

/-- Sequence two computations; a throw in the first skips the second. -/
def Eff.bind {σ ε α β : Type} (x : Eff σ ε α) (f : α → Eff σ ε β) : Eff σ ε β := fun s =>
  match x s with
  | (.ok a, s1) => f a s1
  | (.error e, s1) => (.error e, s1)

/-- The statement `throw e`. -/
def Eff.throw {σ ε α : Type} (e : ε) : Eff σ ε α := fun s => (.error e, s)

/-- The statement `try { x } catch (e) { handler e }`. -/
def Eff.tryCatch {σ ε α : Type} (x : Eff σ ε α) (handler : ε → Eff σ ε α) : Eff σ ε α :=
  fun s =>
    match x s with
    | (.ok a, s1) => (.ok a, s1)
    | (.error e, s1) => handler e s1

/-- The statement `try { x } finally { f }`: the finalizer runs whether `x` returned
or threw, and a throw of the finalizer replaces the outcome of `x`. -/
def Eff.tryFinally {σ ε α β : Type} (x : Eff σ ε α) (f : Option α → Eff σ ε β) :
    Eff σ ε (α × β) := fun s =>
  match x s with
  | (.ok a, s1) =>
    match f (some a) s1 with
    | (.ok b, s2) => (.ok (a, b), s2)
    | (.error e, s2) => (.error e, s2)
  | (.error e, s1) =>
    match f none s1 with
    | (.ok _, s2) => (.error e, s2)
    | (.error e2, s2) => (.error e2, s2)

instance {σ ε : Type} : Monad (Eff σ ε) where
  pure := Eff.pure
  bind := Eff.bind

instance {σ ε : Type} : MonadExceptOf ε (Eff σ ε) where
  throw := Eff.throw
  tryCatch := Eff.tryCatch

instance {σ ε : Type} : MonadFinally (Eff σ ε) where
  tryFinally' := Eff.tryFinally

/-- Change the state. -/
def Eff.update {σ ε : Type} (f : σ → σ) : Eff σ ε Unit := fun s => (.ok (), f s)

/-- Read the state. -/
def Eff.read {σ ε : Type} : Eff σ ε σ := fun s => (.ok s, s)

/-! ## The page: the part of the browser that the DOM query wrapper touches -/

/-- The exceptions that the DOM code throws: `new Error(message)`, and the
`SyntaxError` `DOMException` that `querySelector` throws for a string that is
not a valid selector. -/
inductive JSError where
  | error (message : JSString)
  | syntaxError (selector : JSString)
deriving DecidableEq, Repr

/-- What `querySelector` does with a string: it throws because the string is
not a valid selector, or it returns `null`, or it returns the first matching
element. -/
inductive QueryOutcome where
  | invalid
  | noMatch
  | found (ref : Nat)
deriving DecidableEq, Repr

/-- The state of one element: whether it is an `HTMLElement` (an SVG or MathML
element is an `Element` that is not), its `textContent` and its `classList`. -/
structure ElementState where
  isHTMLElement : Bool
  textContent : JSString
  classList : List JSString
deriving DecidableEq, Repr

/-- The page. Elements are named by references. `documentQuery` is
`document.querySelector`, `elementQuery r` is `querySelector` on element `r`,
and `textOfMarkup` gives the text content of the nodes that the HTML parser
builds from a markup string (what `textContent` reads after `innerHTML` was
assigned that string). -/
structure Page where
  elements : Nat → ElementState
  documentQuery : JSString → QueryOutcome
  elementQuery : Nat → JSString → QueryOutcome
  textOfMarkup : JSString → JSString
  timers : TimerEnv (Nat × JSString)

/-- Computations on the page. -/
abbrev DomM := Eff Page JSError

/-- The call `document.querySelector(selector)` for scope `none`, and
`element.querySelector(selector)` for scope `some element`. -/
def querySelector (scope : Option Nat) (selector : JSString) : DomM (Option Nat) := fun page =>
  let outcome :=
    match scope with
    | none => page.documentQuery selector
    | some r => page.elementQuery r selector
  match outcome with
  | .invalid => (.error (.syntaxError selector), page)
  | .noMatch => (.ok none, page)
  | .found r => (.ok (some r), page)

/-- The assignment `element.innerHTML = markup`, as far as the element's own
text content goes. -/
def setInnerHTML (ref : Nat) (markup : JSString) : DomM Unit :=
  Eff.update fun page =>
    { page with
      elements := fun r =>
        if r = ref then { page.elements r with textContent := page.textOfMarkup markup }
        else page.elements r }

/-- The call `element.classList.add(token)`. -/
def classListAdd (ref : Nat) (token : JSString) : DomM Unit :=
  Eff.update fun page =>
    { page with
      elements := fun r =>
        if r = ref then
          { page.elements r with
            classList :=
              if token ∈ (page.elements r).classList then (page.elements r).classList
              else (page.elements r).classList ++ [token] }
        else page.elements r }

/-- The call `element.classList.remove(token)`. -/
def classListRemove (ref : Nat) (token : JSString) : DomM Unit :=
  Eff.update fun page =>
    { page with
      elements := fun r =>
        if r = ref then
          { page.elements r with
            classList := (page.elements r).classList.filter (fun c => c != token) }
        else page.elements r }

/-! ## `core/rquery/rquery.lib.js` -/

/-- The argument of `new RQuery(selector)`: a string, an element, or a value
that is neither. -/
inductive Selector where
  | string (s : JSString)
  | element (ref : Nat)
  | other
deriving DecidableEq, Repr

/-- An `RQuery` instance: its field `element`. -/
structure RQuery where
  element : Nat
deriving DecidableEq, Repr

/-- The constructor of `RQuery`. -/
def RQuery.new (selector : Selector) : DomM RQuery :=
  match selector with
  | .string s => do
    let element ← querySelector none s
    match element with
    | none => throw (JSError.error (utf16 "Element not found: " ++ s))
    | some r => pure { element := r }
  | .element ref => do
    let page ← Eff.read
    if (page.elements ref).isHTMLElement then pure { element := ref }
    else throw (JSError.error (utf16 "Invalid selector type"))
  | .other => throw (JSError.error (utf16 "Invalid selector type"))

/-- The method `find(selector)`. -/
def RQuery.find (self : RQuery) (selector : JSString) : DomM RQuery := do
  let element ← querySelector (some self.element) selector
  match element with
  | some r => RQuery.new (.element r)
  | none => throw (JSError.error (utf16 "Element not found: " ++ selector))

/-- The function `$R(selector)`. -/
def dollarR (selector : Selector) : DomM RQuery :=
  RQuery.new selector

/-- What `text` returns: the text content (getter) or the instance (setter). -/
inductive TextResult where
  | content (text : JSString)
  | self (instance_ : RQuery)
deriving DecidableEq, Repr

/-- The method `text(textContent)`; `none` is the call without an argument. -/
def RQuery.text (self : RQuery) (textContent : Option JSString) : DomM TextResult :=
  match textContent with
  | none => do
    let page ← Eff.read
    pure (.content (page.elements self.element).textContent)
  | some t => do
    setInnerHTML self.element t
    pure (.self self)

/-- The argument of `addClass` and `removeClass`: one class name or an array. -/
inductive ClassNames where
  | one (className : JSString)
  | many (classNames : List JSString)
deriving DecidableEq, Repr

/-- The method `addClass(classNames)`. -/
def RQuery.addClass (self : RQuery) (classNames : ClassNames) : DomM RQuery := do
  match classNames with
  | .many names =>
    for className in names do
      classListAdd self.element className
  | .one className => classListAdd self.element className
  pure self

/-- The method `removeClass(classNames)`. -/
def RQuery.removeClass (self : RQuery) (classNames : ClassNames) : DomM RQuery := do
  match classNames with
  | .many names =>
    for className in names do
      classListRemove self.element className
  | .one className => classListRemove self.element className
  pure self

/-! ## `core/services/notification.service.js` -/

/-- The class names of `notification.module.scss` that the service uses. -/
structure Styles where
  success : JSString
  error : JSString
deriving DecidableEq, Repr

/-- A `NotificationService` instance: its private field `#timeout`
(`none` is `null`). -/
structure NotificationService where
  timeout : Option Nat
deriving DecidableEq, Repr

/-- The constructor: `this.#timeout = null`. -/
def NotificationService.new : NotificationService := { timeout := none }

/-- The private method `#setTimeout(callback, duration)`. The callback is named by
what it captured: the element and the class name that it will remove. A timer
id is truthy when it is not zero. -/
def NotificationService.setTimeout_ (self : NotificationService) (callback : Nat × JSString)
    (duration : Nat) : DomM NotificationService := fun page =>
  let timers :=
    match self.timeout with
    | some i => if i ≠ 0 then clearTimeout page.timers (some i) else page.timers
    | none => page.timers
  let r := setTimeout timers callback duration
  (.ok { timeout := some r.1 }, { page with timers := r.2 })

/-- The method `show(type, message)`. -/
def NotificationService.show (styles : Styles) (self : NotificationService)
    (type message : JSString) : DomM NotificationService := do
  if !([utf16 "success", utf16 "error"].contains type) then
    throw (JSError.error (utf16 "Invalid notification type. Allowed types: success, error"))
  let notificationElement ← dollarR (.string (utf16 "#notification"))
  let className := if type = utf16 "success" then styles.success else styles.error
  match ← notificationElement.text (some message) with
  | .self chained =>
    let _ ← chained.addClass (.one className)
  | .content _ =>
    throw (JSError.error (utf16 "notificationElement.text(...).addClass is not a function"))
  self.setTimeout_ (notificationElement.element, className) 3000

/-! ## `core/red-query/red-query.lib.js` -/

/-- A JavaScript object with string values, such as a set of HTTP headers: its
properties and their values. -/
abbrev JSObject := List (JSString × JSString)

/-- Read property `key`. -/
def JSObject.get (o : JSObject) (key : JSString) : Option JSString :=
  (o.find? (fun p => p.1 == key)).map (fun p => p.2)

/-- The assignment `o[key] = value`: an existing property gets the new value, a
new property is added. -/
def JSObject.set (o : JSObject) (key value : JSString) : JSObject :=
  match o with
  | [] => [(key, value)]
  | p :: rest => if p.1 == key then (key, value) :: rest else p :: JSObject.set rest key value

/-- The object spread `{ ...target, ...source }`: every property of `source` is
assigned to the copy of `target`, in order. -/
def JSObject.spread (target source : JSObject) : JSObject :=
  source.foldl (fun acc p => JSObject.set acc p.1 p.2) target

/-- The second argument of `fetch`. -/
structure RequestOptions where
  method : JSString
  headers : JSObject
  body : Option JSString
deriving DecidableEq, Repr

/-- What is thrown inside `redQuery`: an error of the DOM code, or any other value
(a rejection of `fetch` or of `response.json()`, a value thrown by a callback). -/
inductive Thrown (V : Type) where
  | js (e : JSError)
  | value (v : V)
deriving DecidableEq, Repr

/-- What `await fetch(url, requestOptions)` gives: a rejection, or a response with
its `ok` flag and with what `await response.json()` gives (the parsed body or
a rejection). -/
inductive FetchOutcome (V : Type) where
  | rejected (reason : V)
  | response (ok : Bool) (json : Except V V)

/-- The argument of `redQuery`. A callback is given by what a call of it does:
it returns or it throws a value. -/
structure QueryArgs (V : Type) where
  path : JSString
  body : Option V := none
  headers : JSObject := []
  method : JSString := utf16 "GET"
  onError : Option (JSString → Except V Unit) := none
  onSuccess : Option (V → Except V Unit) := none

/-- What `redQuery` uses and does not define. `serverUrl` is the constant
`SERVER_URL`, `accessToken` is what `new StorageService().getItem(ACCESS_TOKEN_KEY)`
returns (`none` is `null`), `extractErrorMessage` is the function of that name
(it gets parsed error bodies and caught values, and gives a string), `truthy`
and `stringify` are JavaScript truthiness and `JSON.stringify` on the values
passed as `body`, `fetch` is the network, and `styles` are the class names of
the notification. -/
structure Host (V : Type) where
  serverUrl : JSString
  accessToken : Option JSString
  extractErrorMessage : Thrown V → JSString
  truthy : V → Bool
  stringify : V → JSString
  fetch : JSString → RequestOptions → FetchOutcome V
  styles : Styles

/-- What `redQuery` does that can be seen from outside, in order. -/
inductive Event (V : Type) where
  | fetch (url : JSString) (requestOptions : RequestOptions)
  | onSuccess (data : V)
  | onError (errorMessage : JSString)
  | showError (errorMessage : JSString)
deriving DecidableEq, Repr

/-- The object that `redQuery` returns (`none` is `null`). -/
structure QueryResult (V : Type) where
  isLoading : Bool
  error : Option JSString
  data : Option V
deriving DecidableEq, Repr

/-- The state of one activation of `redQuery`: the page, the log of events, and
the local variables `isLoading`, `error` and `data`. -/
structure QueryState (V : Type) where
  page : Page
  log : List (Event V)
  isLoading : Bool
  error : Option JSString
  data : Option V

/-- Computations inside `redQuery`. -/
abbrev QueryM (V : Type) := Eff (QueryState V) (Thrown V)

/-- Run DOM code inside `redQuery`. -/
def liftDom {V α : Type} (x : DomM α) : QueryM V α := fun s =>
  match x s.page with
  | (.ok a, page) => (.ok a, { s with page := page })
  | (.error e, page) => (.error (.js e), { s with page := page })

/-- Record an event. -/
def logEvent {V : Type} (e : Event V) : QueryM V Unit :=
  Eff.update fun s => { s with log := s.log ++ [e] }

/-- Call a callback: the call is recorded, then the callback returns or throws. -/
def invoke {V : Type} (e : Event V) (outcome : Except V Unit) : QueryM V Unit := do
  logEvent e
  match outcome with
  | .ok _ => pure ()
  | .error v => throw (Thrown.value v)

/-- A string is truthy when it is not empty; `null` is not truthy. -/
def truthyString : Option JSString → Bool
  | some s => !s.isEmpty
  | none => false

/-- The request options that `redQuery` builds before the `try` statement. -/
def requestOptions {V : Type} (host : Host V) (args : QueryArgs V) : RequestOptions := Id.run do
  let accessToken := host.accessToken
  let mut requestOptions : RequestOptions :=
    { method := args.method
      headers := JSObject.spread [(utf16 "Content-Type", utf16 "application/json")] args.headers
      body := none }
  if truthyString accessToken then
    requestOptions :=
      { requestOptions with
        headers := JSObject.set requestOptions.headers (utf16 "Authorization")
          (utf16 "Bearer " ++ accessToken.getD []) }
  match args.body with
  | some body =>
    if host.truthy body then
      requestOptions := { requestOptions with body := some (host.stringify body) }
  | none => pure ()
  return requestOptions

/-- The constant `url`: the server URL, `/api` and the path. -/
def requestUrl {V : Type} (host : Host V) (args : QueryArgs V) : JSString :=
  host.serverUrl ++ utf16 "/api" ++ args.path

/-- The expression `await fetch(url, requestOptions)`. -/
def awaitFetch {V : Type} (host : Host V) (url : JSString) (options : RequestOptions) :
    QueryM V (Bool × Except V V) := do
  logEvent (.fetch url options)
  match host.fetch url options with
  | .rejected reason => throw (Thrown.value reason)
  | .response ok json => pure (ok, json)

/-- The expression `await response.json()`. -/
def awaitJson {V : Type} (json : Except V V) : QueryM V V :=
  match json with
  | .ok body => pure body
  | .error reason => throw (Thrown.value reason)

/-- The statement `new NotificationService().show('error', errorMessage)`. -/
def showError {V : Type} (host : Host V) (errorMessage : JSString) : QueryM V Unit := do
  logEvent (.showError errorMessage)
  let _ ← liftDom (NotificationService.new.show host.styles (utf16 "error") errorMessage)

/-- The function `redQuery`. -/
def redQuery {V : Type} (host : Host V) (args : QueryArgs V) : QueryM V (QueryResult V) := do
  Eff.update fun s => { s with isLoading := true, error := none, data := none }
  let url := requestUrl host args
  let requestOptions := requestOptions host args
  try
    let response ← awaitFetch host url requestOptions
    if response.1 then
      let data ← awaitJson response.2
      Eff.update fun s => { s with data := some data }
      match args.onSuccess with
      | some onSuccess => invoke (.onSuccess data) (onSuccess data)
      | none => pure ()
    else
      let errorData ← awaitJson response.2
      let errorMessage := host.extractErrorMessage (.value errorData)
      match args.onError with
      | some onError => invoke (.onError errorMessage) (onError errorMessage)
      | none => pure ()
      showError host errorMessage
  catch errorData =>
    let errorMessage := host.extractErrorMessage errorData
    match args.onError with
    | some onError => invoke (.onError errorMessage) (onError errorMessage)
    | none => pure ()
    showError host errorMessage
  finally
    Eff.update fun s => { s with isLoading := false }
  let s ← Eff.read
  return { isLoading := s.isLoading, error := s.error, data := s.data }

/-- One call of `redQuery` on a page: what the promise settles with (the returned
object, or the rejection), the log of events and the page afterwards. -/
def redQuery.run {V : Type} (host : Host V) (args : QueryArgs V) (page : Page) :
    Except (Thrown V) (QueryResult V) × List (Event V) × Page :=
  match redQuery host args
      { page := page, log := [], isLoading := true, error := none, data := none } with
  | (r, s) => (r, s.log, s.page)

/-! ## Sample inputs -/

/-- A sample of `textOfMarkup` for markup made of text and of tags without
attribute values that hold `>`: what stands between `<` and `>` is dropped. -/
def stripTags : Bool → JSString → JSString
  | _, [] => []
  | false, c :: rest => if c = 60 then stripTags true rest else c :: stripTags false rest
  | true, c :: rest => if c = 62 then stripTags false rest else stripTags true rest

/-- A sample page: element 0 is the document element, element 1 is the `div` with
id `notification`, element 2 is an `svg` element inside element 0 (an element
that is not an `HTMLElement`). The empty string is not a valid selector. -/
def samplePage : Page where
  elements := fun r =>
    { isHTMLElement := decide (r ≠ 2), textContent := [], classList := [] }
  documentQuery := fun s =>
    if s = [] then .invalid
    else if s = utf16 "#notification" then .found 1
    else if s = utf16 "svg" then .found 2
    else .noMatch
  elementQuery := fun r s =>
    if s = [] then .invalid
    else if r = 0 ∧ s = utf16 "#notification" then .found 1
    else if r = 0 ∧ s = utf16 "svg" then .found 2
    else .noMatch
  textOfMarkup := stripTags false
  timers := { now := 0, nextId := 1, pending := [], invoked := [] }

/-- A sample host for `redQuery` whose values are strings: the server answers
every request with the given outcome, and the error message of a value is the
value itself. -/
def sampleHost (outcome : FetchOutcome JSString) : Host JSString where
  serverUrl := utf16 "http://localhost:4200"
  accessToken := some (utf16 "token")
  extractErrorMessage := fun e =>
    match e with
    | .value v => v
    | .js (.error message) => message
    | .js (.syntaxError selector) => selector
  truthy := fun v => !v.isEmpty
  stringify := fun v => v
  fetch := fun _ _ => outcome
  styles := { success := utf16 "success", error := utf16 "error" }

/-! ## Vocabulary for the event log -/

/-- The log of the state starts with event `e`. -/
def LogStartsWith {V : Type} (e : Event V) (s : QueryState V) : Prop :=
  ∃ rest, s.log = e :: rest

/-- From a state that satisfies `P`, the computation ends, returning or throwing,
in a state that satisfies `Q`. -/
def Triple {V α : Type} (P : QueryState V → Prop) (x : QueryM V α)
    (Q : QueryState V → Prop) : Prop :=
  ∀ s, P s → Q (x s).2

/-- The headers that `redQuery` starts from: `{ 'Content-Type': 'application/json' }`
overlaid with the caller's headers. -/
def overlaidHeaders (callerHeaders : JSObject) : JSObject :=
  JSObject.spread [(utf16 "Content-Type", utf16 "application/json")] callerHeaders

/-- The callbacks and notifications that the split between success and error
prescribes for an outcome of the request: `onSuccess` with the parsed body for
an ok response, and otherwise `onError` and the error notification, both with
the message extracted from the parsed error body or from the rejection. -/
def expectedEvents {V : Type} (host : Host V) : FetchOutcome V → List (Event V)
  | .response true (.ok body) => [.onSuccess body]
  | .response true (.error reason) =>
    [.onError (host.extractErrorMessage (.value reason)),
      .showError (host.extractErrorMessage (.value reason))]
  | .response false (.ok errorData) =>
    [.onError (host.extractErrorMessage (.value errorData)),
      .showError (host.extractErrorMessage (.value errorData))]
  | .response false (.error reason) =>
    [.onError (host.extractErrorMessage (.value reason)),
      .showError (host.extractErrorMessage (.value reason))]
  | .rejected reason =>
    [.onError (host.extractErrorMessage (.value reason)),
      .showError (host.extractErrorMessage (.value reason))]

/-- The event is a call of `onSuccess`. -/
def Event.isSuccessCall {V : Type} : Event V → Bool
  | .onSuccess _ => true
  | _ => false

/-- The event is a call of `onError`. -/
def Event.isErrorCall {V : Type} : Event V → Bool
  | .onError _ => true
  | _ => false

/-- The event is a call of `show('error', …)` on the notification service. -/
def Event.isNotification {V : Type} : Event V → Bool
  | .showError _ => true
  | _ => false

/-- The local variable `error` of `redQuery` holds `null`. -/
def ErrorIsNull {V : Type} (s : QueryState V) : Prop := s.error = none

/-- The local variable `error` holds `null` and `isLoading` holds `false`. -/
def Finished {V : Type} (s : QueryState V) : Prop := s.error = none ∧ s.isLoading = false

/-- The sample page without the notification element. -/
def barePage : Page :=
  { samplePage with documentQuery := fun _ => .noMatch }

/-! ## Vocabulary for the notification service -/

/-- The message of the error that `show` throws for a type that is not allowed. -/
def invalidTypeMessage : JSString :=
  utf16 "Invalid notification type. Allowed types: success, error"

/-- The class that `show` looks up for a type: `classNames[type]`. -/
def notificationClass (styles : Styles) (type : JSString) : JSString :=
  if type = utf16 "success" then styles.success else styles.error

/-! ## Lemmas on grouping -/

theorem cutGroups_nil (n fuel : Nat) : cutGroups n fuel [] = [] := by
  cases fuel <;> rfl

theorem matchFourDigitsAhead_short (s : JSString) (h : s.length ≤ 4) :
    matchFourDigitsAhead s = none := by
  match s, h with
  | [], _ => rfl
  | [_], _ => rfl
  | [_, _], _ => rfl
  | [_, _, _], _ => rfl
  | [_, _, _, _], _ => rfl
  | _ :: _ :: _ :: _ :: _ :: _, h => simp at h

theorem replaceFourDigits_short (fuel : Nat) (s : JSString) (h : s.length ≤ 4) :
    replaceFourDigits fuel s = s := by
  induction fuel generalizing s with
  | zero => rfl
  | succ fuel ih =>
    cases s with
    | nil => rfl
    | cons c rest =>
      have hrest : rest.length ≤ 4 := by simp at h; omega
      simp [replaceFourDigits, matchFourDigitsAhead_short _ h, ih rest hrest]

theorem replaceFourDigits_digits (fuel : Nat) (s : JSString) (hlen : s.length ≤ fuel)
    (hd : ∀ c ∈ s, isDigit c = true) :
    replaceFourDigits fuel s = join [dash] (cutGroups 4 fuel s) := by
  induction fuel generalizing s with
  | zero =>
    have : s = [] := List.length_eq_zero.mp (Nat.le_zero.mp hlen)
    subst this; rfl
  | succ fuel ih =>
    match s, hlen, hd with
    | [], _, _ => rfl
    | [a], _, _ =>
      rw [replaceFourDigits_short _ _ (by simp)]
      simp [cutGroups, cutGroups_nil, join]
    | [a, b], _, _ =>
      rw [replaceFourDigits_short _ _ (by simp)]
      simp [cutGroups, cutGroups_nil, join]
    | [a, b, c], _, _ =>
      rw [replaceFourDigits_short _ _ (by simp)]
      simp [cutGroups, cutGroups_nil, join]
    | [a, b, c, d], _, _ =>
      rw [replaceFourDigits_short _ _ (by simp)]
      simp [cutGroups, cutGroups_nil, join]
    | a :: b :: c :: d :: e :: rest, hlen, hd =>
      have hlen2 : (e :: rest).length ≤ fuel := by simp at hlen ⊢; omega
      have hd2 : ∀ x ∈ e :: rest, isDigit x = true := by
        intro x hx
        apply hd
        simp at hx ⊢
        tauto
      have ha := hd a (by simp)
      have hb := hd b (by simp)
      have hc := hd c (by simp)
      have hd4 := hd d (by simp)
      have he := hd e (by simp)
      have hrec := ih (e :: rest) hlen2 hd2
      cases fuel with
      | zero => simp at hlen2
      | succ f =>
        simp only [replaceFourDigits, matchFourDigitsAhead, ha, hb, hc, hd4, he, Bool.and_self,
          if_true] at hrec ⊢
        rw [hrec]
        simp [cutGroups, join]

theorem cutGroups_cons (n fuel : Nat) (s : JSString) (h : s ≠ []) :
    cutGroups n (fuel + 1) s = s.take n :: cutGroups n fuel (s.drop n) := by
  cases s with
  | nil => exact absurd rfl h
  | cons c rest => rfl

theorem cutGroups_ne_nil (n fuel : Nat) (s : JSString) (h : s ≠ []) (hf : 1 ≤ fuel) :
    cutGroups n fuel s ≠ [] := by
  cases fuel with
  | zero => omega
  | succ f => rw [cutGroups_cons n f s h]; simp

theorem cutGroups_flatten (n fuel : Nat) (s : JSString) (hn : 1 ≤ n) (hlen : s.length ≤ fuel) :
    (cutGroups n fuel s).flatten = s := by
  induction fuel generalizing s with
  | zero =>
    have : s = [] := List.length_eq_zero.mp (Nat.le_zero.mp hlen)
    subst this; rfl
  | succ fuel ih =>
    cases s with
    | nil => rfl
    | cons c rest =>
      rw [cutGroups_cons n fuel _ (by simp)]
      have hdrop : ((c :: rest).drop n).length ≤ fuel := by
        simp only [List.length_drop, List.length_cons] at hlen ⊢
        omega
      rw [List.flatten_cons, ih _ hdrop, List.take_append_drop]

theorem cutGroups_length_le (n fuel : Nat) (s : JSString) (hn : 1 ≤ n) :
    ∀ g ∈ cutGroups n fuel s, 1 ≤ g.length ∧ g.length ≤ n := by
  induction fuel generalizing s with
  | zero => intro g hg; simp [cutGroups] at hg
  | succ fuel ih =>
    cases s with
    | nil => intro g hg; simp [cutGroups] at hg
    | cons c rest =>
      rw [cutGroups_cons n fuel _ (by simp)]
      intro g hg
      rcases List.mem_cons.mp hg with h | h
      · subst h
        simp only [List.length_take, List.length_cons]
        omega
      · exact ih _ g h

theorem cutGroups_dropLast_length (n fuel : Nat) (s : JSString) (hn : 1 ≤ n)
    (hlen : s.length ≤ fuel) :
    ∀ g ∈ (cutGroups n fuel s).dropLast, g.length = n := by
  induction fuel generalizing s with
  | zero => intro g hg; simp [cutGroups] at hg
  | succ fuel ih =>
    cases s with
    | nil => intro g hg; simp [cutGroups] at hg
    | cons c rest =>
      rw [cutGroups_cons n fuel _ (by simp)]
      have hdrop : ((c :: rest).drop n).length ≤ fuel := by
        simp only [List.length_drop, List.length_cons] at hlen ⊢
        omega
      by_cases hnil : (c :: rest).drop n = []
      · rw [hnil, cutGroups_nil]
        intro g hg; simp at hg
      · have hpos : 1 ≤ ((c :: rest).drop n).length :=
          Nat.succ_le_of_lt (List.length_pos.mpr hnil)
        have hne := cutGroups_ne_nil n fuel _ hnil (le_trans hpos hdrop)
        rw [List.dropLast_cons_of_ne_nil hne]
        intro g hg
        rcases List.mem_cons.mp hg with h | h
        · subst h
          simp only [List.length_drop, List.length_cons] at hpos
          simp only [List.length_take, List.length_cons]
          omega
        · exact ih _ hdrop g h

theorem join_head (sep : JSString) (g : JSString) (gs : List JSString) (hg : g ≠ []) :
    (join sep (g :: gs)).head? = g.head? := by
  cases g with
  | nil => exact absurd rfl hg
  | cons c rest =>
    cases gs with
    | nil => rfl
    | cons h t => rfl

theorem join_getLast (sep : JSString) (gs : List JSString) (hne : gs ≠ [])
    (hall : ∀ g ∈ gs, g ≠ []) :
    ∃ g ∈ gs, (join sep gs).getLast? = g.getLast? := by
  induction gs with
  | nil => exact absurd rfl hne
  | cons g t ih =>
    cases t with
    | nil => exact ⟨g, by simp, rfl⟩
    | cons h t =>
      obtain ⟨g2, hg2, hlast⟩ := ih (by simp) (fun x hx => hall x (List.mem_cons_of_mem _ hx))
      refine ⟨g2, List.mem_cons_of_mem _ hg2, ?_⟩
      have hjne : join sep (h :: t) ≠ [] := by
        intro hj
        rw [hj] at hlast
        have : g2 ≠ [] := hall g2 (List.mem_cons_of_mem _ hg2)
        exact this (List.getLast?_eq_none_iff.mp hlast.symm)
      show (g ++ sep ++ join sep (h :: t)).getLast? = g2.getLast?
      rw [List.getLast?_append_of_ne_nil _ hjne, hlast]

/-! ## Lemmas on `formatCardNumber` -/

theorem isWhitespace_of_isLineTerminator (c : Nat) (h : isLineTerminator c = true) :
    isWhitespace c = true := by
  simp only [isLineTerminator, Bool.or_eq_true, beq_iff_eq] at h
  rcases h with ((h | h) | h) | h <;> subst h <;> rfl

theorem removeWhitespace_clean (s : JSString) :
    ∀ c ∈ removeWhitespace s, isWhitespace c = false := by
  intro c hc
  simpa [removeWhitespace] using (List.mem_filter.mp hc).2

theorem removeWhitespace_of_clean (s : JSString) (h : ∀ c ∈ s, isWhitespace c = false) :
    removeWhitespace s = s := by
  apply List.filter_eq_self.mpr
  intro c hc
  simp [h c hc]

theorem not_lineTerminator_of_clean (c : Nat) (h : isWhitespace c = false) :
    isLineTerminator c = false := by
  cases hl : isLineTerminator c with
  | false => rfl
  | true => rw [isWhitespace_of_isLineTerminator c hl] at h; exact absurd h (by simp)

theorem matchDotRun_clean (n : Nat) (s : JSString) (h : ∀ c ∈ s, isWhitespace c = false) :
    matchDotRun n s = (s.take n, s.drop n) := by
  induction n generalizing s with
  | zero => cases s <;> rfl
  | succ n ih =>
    cases s with
    | nil => rfl
    | cons c rest =>
      have hc := not_lineTerminator_of_clean c (h c (by simp))
      have hrest : ∀ x ∈ rest, isWhitespace x = false :=
        fun x hx => h x (List.mem_cons_of_mem _ hx)
      simp [matchDotRun, hc, ih rest hrest]

theorem matchAllDotRuns_clean (fuel : Nat) (s : JSString)
    (h : ∀ c ∈ s, isWhitespace c = false) :
    matchAllDotRuns fuel s = cutGroups 4 fuel s := by
  induction fuel generalizing s with
  | zero => rfl
  | succ fuel ih =>
    cases s with
    | nil => rfl
    | cons c rest =>
      have hdrop : ∀ x ∈ (c :: rest).drop 4, isWhitespace x = false :=
        fun x hx => h x (List.mem_of_mem_drop hx)
      simp only [matchAllDotRuns, matchDotRun_clean 4 (c :: rest) h]
      rw [cutGroups_cons 4 fuel _ (by simp), ← ih _ hdrop]
      rfl

theorem formatCardNumber_eq (s : JSString) :
    formatCardNumber s = join [space] (groupsOfFour (removeWhitespace s)) := by
  unfold formatCardNumber matchDotGroups groupsOfFour
  rw [matchAllDotRuns_clean _ _ (removeWhitespace_clean s)]
  cases cutGroups 4 (removeWhitespace s).length (removeWhitespace s) with
  | nil => rfl
  | cons g gs => rfl

theorem join_filter (p : Nat → Bool) (sep : JSString) (gs : List JSString)
    (hsep : sep.filter p = []) :
    (join sep gs).filter p = gs.flatten.filter p := by
  induction gs with
  | nil => rfl
  | cons g t ih =>
    cases t with
    | nil => simp [join]
    | cons h t =>
      show (g ++ sep ++ join sep (h :: t)).filter p = _
      rw [List.filter_append, List.filter_append, hsep, ih]
      simp

theorem cutGroups_of_groups (fuel : Nat) (gs : List JSString)
    (hlen : gs.flatten.length ≤ fuel)
    (hfull : ∀ g ∈ gs.dropLast, g.length = 4)
    (hall : ∀ g ∈ gs, 1 ≤ g.length ∧ g.length ≤ 4) :
    cutGroups 4 fuel gs.flatten = gs := by
  induction gs generalizing fuel with
  | nil => simp [cutGroups_nil]
  | cons g t ih =>
    have hg := hall g (by simp)
    have hgne : g ≠ [] := by
      intro h0; rw [h0] at hg; simp at hg
    have hne : (g :: t).flatten ≠ [] := by
      simp only [List.flatten_cons]
      intro h0
      exact hgne (List.append_eq_nil.mp h0).1
    cases fuel with
    | zero =>
      exact absurd (List.length_eq_zero.mp (Nat.le_zero.mp hlen)) hne
    | succ fuel =>
      rw [cutGroups_cons 4 fuel _ hne]
      cases t with
      | nil =>
        simp only [List.flatten_cons, List.flatten_nil, List.append_nil]
        rw [List.take_of_length_le hg.2, List.drop_of_length_le hg.2, cutGroups_nil]
      | cons h t =>
        have hg4 : g.length = 4 := hfull g (by simp)
        have htail := ih fuel
          (by simp only [List.flatten_cons, List.length_append] at hlen ⊢; omega)
          (fun x hx => hfull x (by
            rw [List.dropLast_cons_of_ne_nil (by simp)]
            exact List.mem_cons_of_mem _ hx))
          (fun x hx => hall x (List.mem_cons_of_mem _ hx))
        rw [List.flatten_cons, List.take_left' hg4, List.drop_left' hg4, htail]

theorem removeWhitespace_join (gs : List JSString)
    (hclean : ∀ g ∈ gs, ∀ c ∈ g, isWhitespace c = false) :
    removeWhitespace (join [space] gs) = gs.flatten := by
  unfold removeWhitespace
  rw [join_filter _ _ _ (by decide)]
  apply List.filter_eq_self.mpr
  intro c hc
  obtain ⟨g, hg, hcg⟩ := List.mem_flatten.mp hc
  simp [hclean g hg c hcg]

theorem formatCardNumber_of_groups (gs : List JSString)
    (hclean : ∀ g ∈ gs, ∀ c ∈ g, isWhitespace c = false)
    (hfull : ∀ g ∈ gs.dropLast, g.length = 4)
    (hall : ∀ g ∈ gs, 1 ≤ g.length ∧ g.length ≤ 4) :
    formatCardNumber (join [space] gs) = join [space] gs := by
  rw [formatCardNumber_eq, removeWhitespace_join gs hclean]
  unfold groupsOfFour
  rw [cutGroups_of_groups _ gs (le_refl _) hfull hall]

theorem isDigit_ne_dash (c : Nat) (h : isDigit c = true) : c ≠ dash := by
  intro hc
  subst hc
  exact absurd h (by decide)

theorem mem_of_mem_groupsOfFour (s g : JSString) (c : Nat) (hg : g ∈ groupsOfFour s)
    (hc : c ∈ g) : c ∈ s := by
  have h := cutGroups_flatten 4 s.length s (by decide) (le_refl _)
  rw [← h]
  exact List.mem_flatten.mpr ⟨g, hg, hc⟩

theorem groupsOfFour_sixteen (s : JSString) (h : s.length = 16) :
    groupsOfFour s =
      [s.take 4, (s.drop 4).take 4, (s.drop 8).take 4, s.drop 12] := by
  have h0 : s ≠ [] := by intro h0; rw [h0] at h; simp at h
  have h4 : s.drop 4 ≠ [] := by
    intro h0
    have := congrArg List.length h0
    simp [h] at this
  have h8 : (s.drop 4).drop 4 ≠ [] := by
    intro h0
    have := congrArg List.length h0
    simp [h] at this
  have h12 : ((s.drop 4).drop 4).drop 4 ≠ [] := by
    intro h0
    have := congrArg List.length h0
    simp [h] at this
  have h16 : (((s.drop 4).drop 4).drop 4).drop 4 = [] := by
    apply List.length_eq_zero.mp
    simp [h]
  unfold groupsOfFour
  rw [h, cutGroups_cons 4 15 s h0, cutGroups_cons 4 14 _ h4, cutGroups_cons 4 13 _ h8,
    cutGroups_cons 4 12 _ h12, h16, cutGroups_nil]
  have hlast : (((s.drop 4).drop 4).drop 4).take 4 = s.drop 12 := by
    rw [List.take_of_length_le (by simp [h])]
    simp
  rw [hlast]
  simp

/-! ## Claims on the card number formatters -/

/-- C1: on a string of `n ≥ 1` decimal digits, `formatCardNumberWithDashes` returns
the string cut left to right into groups of four (every group but the last has
four digits, the last has one to four) joined by single dashes, with no leading
and no trailing dash; a 16-digit string becomes `dddd-dddd-dddd-dddd`, and
`1234567890123456` becomes `1234-5678-9012-3456`. -/
theorem formatCardNumberWithDashes_digits (s : JSString) (hn : 1 ≤ s.length)
    (hd : ∀ c ∈ s, isDigit c = true) :
    formatCardNumberWithDashes s = join [dash] (groupsOfFour s) ∧
    (groupsOfFour s).flatten = s ∧
    (∀ g ∈ (groupsOfFour s).dropLast, g.length = 4) ∧
    (∃ g, (groupsOfFour s).getLast? = some g ∧ 1 ≤ g.length ∧ g.length ≤ 4) ∧
    (formatCardNumberWithDashes s).head? ≠ some dash ∧
    (formatCardNumberWithDashes s).getLast? ≠ some dash ∧
    (s.length = 16 → formatCardNumberWithDashes s =
      s.take 4 ++ dash :: ((s.drop 4).take 4 ++ dash ::
        ((s.drop 8).take 4 ++ dash :: s.drop 12))) ∧
    formatCardNumberWithDashes (utf16 "1234567890123456") = utf16 "1234-5678-9012-3456" := by
  have hmain : formatCardNumberWithDashes s = join [dash] (groupsOfFour s) :=
    replaceFourDigits_digits s.length s (le_refl _) hd
  have hsne : s ≠ [] := by intro h0; rw [h0] at hn; simp at hn
  have hgne : groupsOfFour s ≠ [] := cutGroups_ne_nil 4 s.length s hsne hn
  have hlen := cutGroups_length_le 4 s.length s (by decide)
  have hnonempty : ∀ g ∈ groupsOfFour s, g ≠ [] := by
    intro g hg h0
    have := (hlen g hg).1
    rw [h0] at this
    simp at this
  refine ⟨hmain, cutGroups_flatten 4 s.length s (by decide) (le_refl _),
    cutGroups_dropLast_length 4 s.length s (by decide) (le_refl _), ?_, ?_, ?_, ?_, by decide⟩
  · cases hl : (groupsOfFour s).getLast? with
    | none => exact absurd (List.getLast?_eq_none_iff.mp hl) hgne
    | some g => exact ⟨g, rfl, hlen g (List.mem_of_getLast?_eq_some hl)⟩
  · rw [hmain]
    cases hgs : groupsOfFour s with
    | nil => exact absurd hgs hgne
    | cons g t =>
      have hgmem : g ∈ groupsOfFour s := by rw [hgs]; simp
      rw [join_head _ g t (hnonempty g hgmem)]
      intro hh
      have hc : dash ∈ g := List.mem_of_mem_head? hh
      exact isDigit_ne_dash dash (hd dash (mem_of_mem_groupsOfFour s g dash hgmem hc)) rfl
  · rw [hmain]
    obtain ⟨g, hg, hlast⟩ := join_getLast [dash] (groupsOfFour s) hgne hnonempty
    rw [hlast]
    intro hh
    have hc : dash ∈ g := List.mem_of_getLast?_eq_some hh
    exact isDigit_ne_dash dash (hd dash (mem_of_mem_groupsOfFour s g dash hg hc)) rfl
  · intro h16
    rw [hmain, groupsOfFour_sixteen s h16]
    simp [join]

/-- Witness for C1 at the card number `4000123412341234`. -/
theorem formatCardNumberWithDashes_digits_witness :
    formatCardNumberWithDashes (utf16 "4000123412341234") =
      join [dash] (groupsOfFour (utf16 "4000123412341234")) ∧
    formatCardNumberWithDashes (utf16 "4000123412341234") = utf16 "4000-1234-1234-1234" :=
  ⟨(formatCardNumberWithDashes_digits (utf16 "4000123412341234") (by decide) (by decide)).1,
    by decide⟩

/-- C2: `formatCardNumber` returns unchanged every string made of groups of four
non-whitespace code units separated by single spaces (the last group may hold
one to four), and therefore applying it twice is the same as applying it once. -/
theorem formatCardNumber_roundtrip :
    (∀ gs : List JSString,
      (∀ g ∈ gs, ∀ c ∈ g, isWhitespace c = false) →
      (∀ g ∈ gs.dropLast, g.length = 4) →
      (∀ g ∈ gs.getLast?, 1 ≤ g.length ∧ g.length ≤ 4) →
      formatCardNumber (join [space] gs) = join [space] gs) ∧
    (∀ t : JSString, formatCardNumber (formatCardNumber t) = formatCardNumber t) := by
  constructor
  · intro gs hclean hfull hlast
    apply formatCardNumber_of_groups gs hclean hfull
    intro g hg
    cases hl : gs.getLast? with
    | none =>
      rw [List.getLast?_eq_none_iff.mp hl] at hg
      simp at hg
    | some l =>
      have hsplit := List.dropLast_append_getLast? l (by rw [hl]; exact rfl)
      rw [← hsplit] at hg
      rcases List.mem_append.mp hg with h | h
      · rw [hfull g h]; decide
      · have : g = l := by simpa using h
        subst this
        exact hlast g (by rw [hl]; exact rfl)
  · intro t
    rw [formatCardNumber_eq t]
    apply formatCardNumber_of_groups
    · intro g hg c hc
      exact removeWhitespace_clean t c (mem_of_mem_groupsOfFour _ g c hg hc)
    · exact cutGroups_dropLast_length 4 _ _ (by decide) (le_refl _)
    · exact cutGroups_length_le 4 _ _ (by decide)

/-- Witness for C2 at the spaced string `1234 5678 90`. -/
theorem formatCardNumber_roundtrip_witness :
    formatCardNumber (join [space] [utf16 "1234", utf16 "5678", utf16 "90"]) =
      utf16 "1234 5678 90" :=
  formatCardNumber_roundtrip.1 [utf16 "1234", utf16 "5678", utf16 "90"]
    (by decide) (by decide) (by decide)

/-- C3: `formatCardNumber(s)` is the string `s` without its whitespace, cut in
order into groups of four (the last holding one to four code units) and joined
by single spaces; removing the spaces from the result gives back `s` without
its whitespace; the result is empty exactly when `s` holds nothing but
whitespace; and `1234567890123456` becomes `1234 5678 9012 3456`. -/
theorem formatCardNumber_spec (s : JSString) :
    formatCardNumber s = join [space] (groupsOfFour (removeWhitespace s)) ∧
    (groupsOfFour (removeWhitespace s)).flatten = removeWhitespace s ∧
    (∀ g ∈ (groupsOfFour (removeWhitespace s)).dropLast, g.length = 4) ∧
    (∀ g ∈ groupsOfFour (removeWhitespace s), 1 ≤ g.length ∧ g.length ≤ 4) ∧
    (formatCardNumber s).filter (fun c => c != space) = removeWhitespace s ∧
    ((∀ c ∈ s, isWhitespace c = true) ↔ formatCardNumber s = []) ∧
    formatCardNumber (utf16 "1234567890123456") = utf16 "1234 5678 9012 3456" := by
  have hflat := cutGroups_flatten 4 _ (removeWhitespace s) (by decide) (le_refl _)
  have hunspace : (formatCardNumber s).filter (fun c => c != space) = removeWhitespace s := by
    rw [formatCardNumber_eq, join_filter _ _ _ (by decide)]
    show (groupsOfFour (removeWhitespace s)).flatten.filter _ = _
    unfold groupsOfFour
    rw [hflat]
    apply List.filter_eq_self.mpr
    intro c hc
    have hw := removeWhitespace_clean s c hc
    have : c ≠ space := by
      intro h0; subst h0; exact absurd hw (by decide)
    simpa using this
  refine ⟨formatCardNumber_eq s, hflat,
    cutGroups_dropLast_length 4 _ _ (by decide) (le_refl _),
    cutGroups_length_le 4 _ _ (by decide), hunspace, ?_, by decide⟩
  constructor
  · intro hws
    have hempty : removeWhitespace s = [] := by
      apply List.filter_eq_nil_iff.mpr
      intro c hc
      simp [hws c hc]
    rw [formatCardNumber_eq, hempty]
    rfl
  · intro hres c hc
    rw [hres] at hunspace
    have hempty : removeWhitespace s = [] := by simpa using hunspace.symm
    have := List.filter_eq_nil_iff.mp hempty c hc
    simpa using this

/-- Witness for C3 at a string of a space, a tab and a line feed. -/
theorem formatCardNumber_spec_witness : formatCardNumber [space, 9, 10] = [] :=
  (formatCardNumber_spec [space, 9, 10]).2.2.2.2.2.1.mp (by decide)

/-! ## The credit card input handler -/

/-- C9 (the code at the failing input): for the typed string `12.34` the handler
writes back `12.34`, a value that holds a dot; and for `1234.5678` it writes
back `1234.5678`, where no dash follows the fourth digit. -/
theorem creditCardInputHandler_keeps_dot :
    creditCardInputHandler (utf16 "12.34") = utf16 "12.34" ∧
    dot ∈ creditCardInputHandler (utf16 "12.34") ∧
    creditCardInputHandler (utf16 "1234.5678") = utf16 "1234.5678" ∧
    creditCardInputHandler (utf16 "1.2345678901234567") = utf16 "1.2345-6789-0123-45" := by
  decide

/-! ## Debounce -/

theorem burst_first {A : Type} (wait : Nat) (c : Nat × A) :
    BurstState wait ((debounce A).exec wait (timedCalls [c])) c := by
  refine ⟨1, ?_, rfl, ?_, ?_⟩ <;>
    simp [timedCalls, Debounced.exec, Debounced.step, Debounced.call, debounce, runTimers,
      clearTimeout, setTimeout, insertTimer]

theorem burst_next {A : Type} (wait : Nat) (d : Debounced A) (c e : Nat × A)
    (hd : BurstState wait d c) (hce : InBurst wait c e) :
    BurstState wait (d.exec wait (timedCalls [e])) e := by
  obtain ⟨i, hp, ht, hi, hn⟩ := hd
  obtain ⟨h1, h2⟩ := hce
  have hnot : ¬ (c.1 + wait ≤ e.1) := by omega
  refine ⟨d.env.nextId, ?_, ?_, ?_, ?_⟩ <;>
    simp [timedCalls, Debounced.exec, Debounced.step, Debounced.call, runTimers,
      clearTimeout, setTimeout, insertTimer, hp, ht, hi, hn, hnot, h1]

theorem exec_append {A : Type} (wait : Nat) (d : Debounced A) (xs ys : List (Action A)) :
    d.exec wait (xs ++ ys) = (d.exec wait xs).exec wait ys := by
  simp [Debounced.exec, List.foldl_append]

theorem timedCalls_cons {A : Type} (c : Nat × A) (cs : List (Nat × A)) :
    timedCalls (c :: cs) = timedCalls [c] ++ timedCalls cs := by
  simp [timedCalls]

theorem burst_chain {A : Type} (wait : Nat) (d : Debounced A) (c : Nat × A)
    (cs : List (Nat × A)) (hd : BurstState wait d c) (hchain : List.Chain (InBurst wait) c cs) :
    BurstState wait (d.exec wait (timedCalls cs)) ((c :: cs).getLast (by simp)) := by
  induction cs generalizing d c with
  | nil => simpa [timedCalls, Debounced.exec] using hd
  | cons e es ih =>
    rw [List.chain_cons] at hchain
    rw [timedCalls_cons, exec_append]
    have := ih (d.exec wait (timedCalls [e])) e (burst_next wait d c e hd hchain.1) hchain.2
    simpa [List.getLast_cons] using this

theorem burst_elapse {A : Type} (wait : Nat) (d : Debounced A) (c : Nat × A)
    (hd : BurstState wait d c) (T : Nat) :
    (d.exec wait [Action.elapse T]).env.invoked =
        (if c.1 + wait ≤ T then [(c.1 + wait, c.2)] else []) ∧
    (d.exec wait [Action.elapse T]).env.pending =
        (if c.1 + wait ≤ T then [] else d.env.pending) := by
  obtain ⟨i, hp, ht, hi, hn⟩ := hd
  by_cases h : c.1 + wait ≤ T <;>
    simp [Debounced.exec, Debounced.step, runTimers, hp, hi, h]

theorem atMostOne_step {A : Type} (wait : Nat) (d : Debounced A) (a : Action A)
    (h : AtMostOnePending d) : AtMostOnePending (d.step wait a) := by
  obtain ⟨hlen, hid⟩ := h
  cases a with
  | call payload =>
    have hclear : (clearTimeout d.env d.timeout).pending = [] := by
      match hp : d.env.pending, hlen, hid with
      | [], _, _ => cases d.timeout <;> simp [clearTimeout, hp]
      | [t], _, hid =>
        have := hid t (by simp)
        simp [clearTimeout, hp, this]
      | _ :: _ :: _, hlen, _ => simp at hlen
    constructor
    · simp [Debounced.step, Debounced.call, setTimeout, hclear, insertTimer]
    · intro t ht
      simp [Debounced.step, Debounced.call, setTimeout, hclear, insertTimer] at ht ⊢
      have hnext : (clearTimeout d.env d.timeout).nextId = d.env.nextId := by
        cases d.timeout <;> rfl
      rw [ht, hnext]
  | elapse t =>
    constructor
    · exact le_trans (List.length_filter_le _ _) hlen
    · intro x hx
      exact hid x (List.mem_of_mem_filter hx)

theorem atMostOne_exec {A : Type} (wait : Nat) (d : Debounced A) (acts : List (Action A))
    (h : AtMostOnePending d) : AtMostOnePending (d.exec wait acts) := by
  induction acts generalizing d with
  | nil => exact h
  | cons a as ih => exact ih (d.step wait a) (atMostOne_step wait d a h)

theorem atMostOne_debounce (A : Type) : AtMostOnePending (debounce A) := by
  constructor
  · simp [debounce]
  · intro t ht
    simp [debounce] at ht

/-- C4: with the timer as explicit state, a burst of calls to the debounced
function (each call less than `wait` after the previous one) makes `fn` run
exactly once: nothing was invoked before `wait` has passed since the last call,
and from then on the log of invocations holds one entry, made `wait` after the
last call with the payload of the last call, and no timer is left; and after
any sequence of calls and pauses whatsoever at most one invocation is pending. -/
theorem debounce_burst_invokes_once {A : Type} (wait : Nat) (c : Nat × A)
    (cs : List (Nat × A)) (hburst : List.Chain (InBurst wait) c cs) (T : Nat) :
    ((debounce A).exec wait (timedCalls (c :: cs) ++ [Action.elapse T])).env.invoked =
      (if ((c :: cs).getLast (by simp)).1 + wait ≤ T then
        [(((c :: cs).getLast (by simp)).1 + wait, ((c :: cs).getLast (by simp)).2)]
      else []) ∧
    (((c :: cs).getLast (by simp)).1 + wait ≤ T →
      ((debounce A).exec wait (timedCalls (c :: cs) ++ [Action.elapse T])).env.pending = []) ∧
    (∀ acts : List (Action A), ((debounce A).exec wait acts).env.pending.length ≤ 1) := by
  have hstate : BurstState wait ((debounce A).exec wait (timedCalls (c :: cs)))
      ((c :: cs).getLast (by simp)) := by
    rw [timedCalls_cons, exec_append]
    exact burst_chain wait _ c cs (burst_first wait c) hburst
  have helapse := burst_elapse wait _ _ hstate T
  rw [exec_append]
  refine ⟨helapse.1, ?_, ?_⟩
  · intro hT
    rw [helapse.2, if_pos hT]
  · intro acts
    exact (atMostOne_exec wait _ acts (atMostOne_debounce A)).1

/-- Witness for C4: three keystrokes at 0, 100 and 350 ms with `wait = 300`; by
650 ms the handler ran once, at 650 ms, for the last keystroke. -/
theorem debounce_burst_invokes_once_witness :
    ((debounce String).exec 300
      (timedCalls [(0, "a"), (100, "ab"), (350, "abc")] ++ [Action.elapse 650])).env.invoked =
      [(650, "abc")] :=
  (debounce_burst_invokes_once 300 (0, "a") [(100, "ab"), (350, "abc")]
    (List.Chain.cons (by decide) (List.Chain.cons (by decide) List.Chain.nil)) 650).1

/-! ## The DOM query wrapper -/

theorem elementNotFound_ne_invalidType (s : JSString) :
    utf16 "Element not found: " ++ s ≠ utf16 "Invalid selector type" := by
  have h1 : utf16 "Element not found: " = 69 :: utf16 "lement not found: " := by decide
  have h3 : utf16 "Invalid selector type" = 73 :: utf16 "nvalid selector type" := by decide
  rw [h1, h3]
  simp

theorem dollarR_string (page : Page) (s : JSString) :
    dollarR (.string s) page =
      match page.documentQuery s with
      | .invalid => (.error (.syntaxError s), page)
      | .noMatch => (.error (.error (utf16 "Element not found: " ++ s)), page)
      | .found r => (.ok { element := r }, page) := by
  show Eff.bind (querySelector none s) _ page = _
  unfold Eff.bind querySelector
  cases h : page.documentQuery s <;> simp only [h] <;> rfl

theorem dollarR_element (page : Page) (r : Nat) :
    dollarR (.element r) page =
      if (page.elements r).isHTMLElement then (.ok { element := r }, page)
      else (.error (.error (utf16 "Invalid selector type")), page) := by
  simp only [dollarR, RQuery.new, bind, Eff.bind, Eff.read]
  cases h : (page.elements r).isHTMLElement <;> simp <;> rfl

theorem find_eq (page : Page) (q : RQuery) (s : JSString) :
    q.find s page =
      match page.elementQuery q.element s with
      | .invalid => (.error (.syntaxError s), page)
      | .noMatch => (.error (.error (utf16 "Element not found: " ++ s)), page)
      | .found r =>
        if (page.elements r).isHTMLElement then (.ok { element := r }, page)
        else (.error (.error (utf16 "Invalid selector type")), page) := by
  show Eff.bind (querySelector (some q.element) s) _ page = _
  unfold Eff.bind querySelector
  cases h : page.elementQuery q.element s with
  | invalid => simp only [h]
  | noMatch => simp only [h]; rfl
  | found r => simp only [h]; exact dollarR_element page r

/-- C8 (counterexample): on the sample page the empty string matches no element,
and `$R('')` throws the `SyntaxError` of `querySelector`, not `Element not found`;
and the first descendant of element 0 matching `svg` exists, and `find('svg')`
throws `Invalid selector type` instead of returning a wrapper of it. -/
theorem rquery_lookup_counterexample :
    (∀ r, samplePage.documentQuery [] ≠ .found r) ∧
    (dollarR (.string []) samplePage).1 = .error (.syntaxError []) ∧
    samplePage.elementQuery 0 (utf16 "svg") = .found 2 ∧
    ((RQuery.mk 0).find (utf16 "svg") samplePage).1 =
      .error (.error (utf16 "Invalid selector type")) := by
  refine ⟨?_, rfl, rfl, rfl⟩
  intro r h
  have h1 : samplePage.documentQuery [] = .invalid := rfl
  rw [h1] at h
  exact QueryOutcome.noConfusion h

/-- C8 (amended): `$R(selector)` throws `Element not found: <selector>` exactly when
`selector` is a string that is a valid selector matching no element of the
document, throws `Invalid selector type` exactly when `selector` is neither a
string nor an `HTMLElement`, wraps the first match of a matching string and
wraps a given `HTMLElement`; `find(selector)` throws `Element not found:
<selector>` exactly when `selector` is a valid selector that no descendant
matches, and when the first matching descendant is an `HTMLElement` it returns
a new wrapper of it; none of these changes the page or the receiver. -/
theorem rquery_lookup (page : Page) :
    (∀ s, (dollarR (.string s) page).1 =
        .error (.error (utf16 "Element not found: " ++ s)) ↔
      page.documentQuery s = .noMatch) ∧
    (∀ sel, (dollarR sel page).1 = .error (.error (utf16 "Invalid selector type")) ↔
      (sel = .other ∨ ∃ r, sel = .element r ∧ (page.elements r).isHTMLElement = false)) ∧
    (∀ s r, page.documentQuery s = .found r →
      dollarR (.string s) page = (.ok { element := r }, page)) ∧
    (∀ r, (page.elements r).isHTMLElement = true →
      dollarR (.element r) page = (.ok { element := r }, page)) ∧
    (∀ (q : RQuery) s, (q.find s page).1 =
        .error (.error (utf16 "Element not found: " ++ s)) ↔
      page.elementQuery q.element s = .noMatch) ∧
    (∀ (q : RQuery) s r, page.elementQuery q.element s = .found r →
      (page.elements r).isHTMLElement = true →
      q.find s page = (.ok { element := r }, page)) := by
  refine ⟨?_, ?_, ?_, ?_, ?_, ?_⟩
  · intro s
    rw [dollarR_string]
    cases h : page.documentQuery s <;> simp
  · intro sel
    cases sel with
    | string s =>
      rw [dollarR_string]
      cases h : page.documentQuery s <;> simp [elementNotFound_ne_invalidType]
    | element r =>
      rw [dollarR_element]
      cases h : (page.elements r).isHTMLElement <;> simp [h]
    | other =>
      simp
      rfl
  · intro s r h
    rw [dollarR_string, h]
  · intro r h
    rw [dollarR_element, h]
    rfl
  · intro q s
    rw [find_eq]
    cases h : page.elementQuery q.element s with
    | invalid => simp
    | noMatch => simp
    | found r =>
      cases h2 : (page.elements r).isHTMLElement <;>
        simp [h2, elementNotFound_ne_invalidType, (elementNotFound_ne_invalidType s).symm]
  · intro q s r h h2
    rw [find_eq, h]
    simp [h2]

/-- Witness for C8 on the sample page: `$R('#notification')` wraps element 1. -/
theorem rquery_lookup_witness :
    dollarR (.string (utf16 "#notification")) samplePage = (.ok { element := 1 }, samplePage) :=
  (rquery_lookup samplePage).2.2.1 (utf16 "#notification") 1 rfl

/-! ## `RQuery.text` -/

theorem text_set_get (page : Page) (q : RQuery) (t : JSString) :
    (q.text (some t) page).1 = .ok (.self q) ∧
    (q.text none (q.text (some t) page).2).1 = .ok (.content (page.textOfMarkup t)) := by
  constructor
  · rfl
  · simp [RQuery.text, bind, Eff.bind, Eff.read, setInnerHTML, Eff.update, pure, Eff.pure]

/-- C10 (the code at the failing input): `text(t)` assigns `t` to `innerHTML`, so in
every browser, where the markup `<b>x</b>` parses to an element whose text is
`x`, `text('<b>x</b>')` followed by `text()` returns `x` and not `<b>x</b>`. -/
theorem text_markup_not_roundtrip (page : Page) (q : RQuery)
    (hparse : page.textOfMarkup (utf16 "<b>x</b>") = utf16 "x") :
    (q.text (some (utf16 "<b>x</b>")) page).1 = .ok (.self q) ∧
    (q.text none (q.text (some (utf16 "<b>x</b>")) page).2).1 = .ok (.content (utf16 "x")) ∧
    utf16 "x" ≠ utf16 "<b>x</b>" := by
  have h := text_set_get page q (utf16 "<b>x</b>")
  rw [hparse] at h
  exact ⟨h.1, h.2, by decide⟩

/-- Witness for C10 on the sample page and its element 1. -/
theorem text_markup_not_roundtrip_witness :
    ((RQuery.mk 1).text none
      ((RQuery.mk 1).text (some (utf16 "<b>x</b>")) samplePage).2).1 =
      .ok (.content (utf16 "x")) :=
  (text_markup_not_roundtrip samplePage (RQuery.mk 1) (by decide)).2.1

/-! ## `redQuery` -/

theorem JSObject.get_set (o : JSObject) (k v k2 : JSString) :
    (JSObject.set o k v).get k2 = if k2 = k then some v else o.get k2 := by
  induction o with
  | nil =>
    by_cases h : k2 = k
    · subst h; simp [JSObject.set, JSObject.get]
    · have h2 : ¬ k = k2 := fun e => h e.symm
      simp [JSObject.set, JSObject.get, h, h2]
  | cons p rest ih =>
    unfold JSObject.set
    by_cases hp : p.1 = k
    · by_cases h : k2 = k
      · subst h; simp [JSObject.get, hp]
      · have h2 : ¬ k = k2 := fun e => h e.symm
        have h3 : ¬ p.1 = k2 := fun e => h (e.symm.trans hp)
        simp [JSObject.get, hp, h, h2, h3]
    · by_cases h3 : p.1 = k2
      · have h : ¬ k2 = k := fun e => hp (h3.trans e)
        simp [JSObject.get, hp, h, h3]
      · have ih2 := ih
        simp only [JSObject.get] at ih2
        simp [JSObject.get, hp, h3, ih2]

theorem JSObject.get_spread_of_not_mem (source target : JSObject) (k : JSString)
    (hk : k ∉ source.map Prod.fst) :
    (JSObject.spread target source).get k = target.get k := by
  induction source generalizing target with
  | nil => rfl
  | cons p rest ih =>
    have hk1 : k ≠ p.1 := fun e => hk (by simp [e])
    have hk2 : k ∉ rest.map Prod.fst := fun e => hk (by simp at e ⊢; exact Or.inr e)
    show (JSObject.spread (JSObject.set target p.1 p.2) rest).get k = _
    rw [ih _ hk2, JSObject.get_set, if_neg hk1]

theorem JSObject.get_spread_of_mem (source target : JSObject) (k v : JSString)
    (hnodup : (source.map Prod.fst).Nodup) (hmem : (k, v) ∈ source) :
    (JSObject.spread target source).get k = some v := by
  induction source generalizing target with
  | nil => simp at hmem
  | cons p rest ih =>
    rw [List.map_cons, List.nodup_cons] at hnodup
    show (JSObject.spread (JSObject.set target p.1 p.2) rest).get k = _
    rcases List.mem_cons.mp hmem with h | h
    · subst h
      rw [JSObject.get_spread_of_not_mem _ _ _ hnodup.1, JSObject.get_set, if_pos rfl]
    · exact ih _ hnodup.2 h

theorem show_error_found (styles : Styles) (message : JSString) (page : Page) (r : Nat)
    (h : page.documentQuery (utf16 "#notification") = .found r) :
    ∃ service page2,
      NotificationService.new.show styles (utf16 "error") message page = (.ok service, page2) := by
  have h1 := dollarR_string page (utf16 "#notification")
  rw [h] at h1
  simp only [NotificationService.show, bind, Eff.bind, h1]
  simp [pure, Eff.pure, RQuery.text, bind, Eff.bind, setInnerHTML, Eff.update, RQuery.addClass,
    classListAdd, NotificationService.setTimeout_, NotificationService.new]
  rw [h1]
  exact ⟨_, _, rfl⟩

theorem triple_pure {V α : Type} (Q : QueryState V → Prop) (a : α) :
    Triple Q (pure a : QueryM V α) Q := fun _ h => h

theorem triple_throw {V α : Type} (Q : QueryState V → Prop) (err : Thrown V) :
    Triple Q (throw err : QueryM V α) Q := fun _ h => h

theorem triple_bind {V α β : Type} (P Q : QueryState V → Prop) (x : QueryM V α)
    (f : α → QueryM V β) (hx : Triple P x Q) (hf : ∀ a, Triple Q (f a) Q) :
    Triple P (x >>= f) Q := by
  intro s hs
  have h1 := hx s hs
  show Q (Eff.bind x f s).2
  unfold Eff.bind
  rcases hxs : x s with ⟨r, s1⟩
  rw [hxs] at h1
  cases r with
  | ok a => exact hf a s1 h1
  | error err => exact h1

theorem triple_tryCatch {V α : Type} (P Q : QueryState V → Prop) (x : QueryM V α)
    (handler : Thrown V → QueryM V α)
    (hx : Triple P x Q) (hh : ∀ err, Triple Q (handler err) Q) :
    Triple P (tryCatch x handler) Q := by
  intro s hs
  have h1 := hx s hs
  show Q (Eff.tryCatch x handler s).2
  unfold Eff.tryCatch
  rcases hxs : x s with ⟨r, s1⟩
  rw [hxs] at h1
  cases r with
  | ok a => exact h1
  | error err => exact hh err s1 h1

theorem triple_tryFinally {V α : Type} (P Q R : QueryState V → Prop) (x : QueryM V α)
    (fin : QueryM V Unit) (hx : Triple P x Q) (hf : Triple Q fin R) :
    Triple P (tryFinally x fin) R := by
  intro s hs
  have h1 := hx s hs
  show R (Eff.bind (Eff.tryFinally x (fun _ => fin)) _ s).2
  unfold Eff.bind Eff.tryFinally
  rcases hxs : x s with ⟨r, s1⟩
  rw [hxs] at h1
  have h2 := hf s1 h1
  rcases hfs : fin s1 with ⟨r2, s2⟩
  rw [hfs] at h2
  cases r <;> cases r2 <;> simp only [hfs] <;> exact h2

theorem triple_update {V : Type} (P Q : QueryState V → Prop) (f : QueryState V → QueryState V)
    (hf : ∀ s, P s → Q (f s)) : Triple P (Eff.update f : QueryM V Unit) Q :=
  fun s hs => hf s hs

theorem triple_update_bind {V β : Type} (P P2 Q : QueryState V → Prop)
    (f : QueryState V → QueryState V) (y : Unit → QueryM V β)
    (hf : ∀ s, P s → P2 (f s)) (hy : Triple P2 (y ()) Q) :
    Triple P (Eff.update f >>= y) Q :=
  fun s hs => hy (f s) (hf s hs)

theorem triple_liftDom {V α : Type} (Q : QueryState V → Prop) (x : DomM α)
    (hQ : ∀ s page, Q s → Q { s with page := page }) :
    Triple Q (liftDom x : QueryM V α) Q := by
  intro s hs
  unfold liftDom
  rcases x s.page with ⟨r, p⟩
  cases r <;> exact hQ s p hs

theorem startsWith_append {V : Type} (e : Event V) (s : QueryState V) (log : List (Event V))
    (l : List (Event V)) (h : LogStartsWith e s) (hl : log = s.log ++ l) :
    ∃ rest, log = e :: rest := by
  obtain ⟨rest, hrest⟩ := h
  exact ⟨rest ++ l, by rw [hl, hrest]; rfl⟩

theorem keeps_logEvent {V : Type} (e ev : Event V) :
    Triple (LogStartsWith e) (logEvent ev) (LogStartsWith e) :=
  triple_update _ _ _ (fun s hs => startsWith_append e s _ [ev] hs rfl)

theorem keeps_invoke {V : Type} (e ev : Event V) (outcome : Except V Unit) :
    Triple (LogStartsWith e) (invoke ev outcome) (LogStartsWith e) := by
  refine triple_bind _ (LogStartsWith e) _ _ (keeps_logEvent e ev) (fun _ => ?_)
  cases outcome with
  | ok u => exact triple_pure _ _
  | error v => exact triple_throw _ _

theorem keeps_awaitJson {V : Type} (e : Event V) (json : Except V V) :
    Triple (LogStartsWith e) (awaitJson json) (LogStartsWith e) := by
  cases json with
  | ok b => exact triple_pure _ _
  | error v => exact triple_throw _ _

theorem keeps_showError {V : Type} (e : Event V) (host : Host V) (m : JSString) :
    Triple (LogStartsWith e) (showError host m) (LogStartsWith e) := by
  refine triple_bind _ (LogStartsWith e) _ _ (keeps_logEvent e _) (fun _ => ?_)
  refine triple_bind _ (LogStartsWith e) _ _
    (triple_liftDom (LogStartsWith e) _ (fun s page hs => hs)) (fun _ => ?_)
  exact triple_pure _ _

theorem starts_awaitFetch {V : Type} (host : Host V) (url : JSString) (o : RequestOptions) :
    Triple (fun s => s.log = []) (awaitFetch host url o) (LogStartsWith (.fetch url o)) := by
  refine triple_bind _ (LogStartsWith (.fetch url o)) _ _ ?_ (fun _ => ?_)
  · intro s hs
    exact ⟨[], by show s.log ++ [_] = _; rw [hs]; rfl⟩
  · cases host.fetch url o with
    | rejected reason => exact triple_throw _ _
    | response ok json => exact triple_pure _ _

theorem redQuery_fetch_first {V : Type} (host : Host V) (args : QueryArgs V) :
    Triple (fun s => s.log = []) (redQuery host args)
      (LogStartsWith (.fetch (requestUrl host args) (requestOptions host args))) := by
  refine triple_update_bind (fun s => s.log = []) (fun s => s.log = []) (LogStartsWith _) _ _
    (fun s hs => hs) ?_
  refine triple_bind (fun s => s.log = []) (LogStartsWith _) _ _ ?_ (fun _ => ?_)
  · refine triple_tryFinally (fun s => s.log = [])
      (LogStartsWith (.fetch (requestUrl host args) (requestOptions host args)))
      (LogStartsWith _) _ _ ?_ ?_
    · refine triple_tryCatch (fun s => s.log = []) (LogStartsWith _) _ _ ?_ (fun err => ?_)
      · refine triple_bind _ (LogStartsWith _) _ _ (starts_awaitFetch host _ _) (fun response => ?_)
        rcases response with ⟨ok, json⟩
        cases ok with
        | true =>
          refine triple_bind _ (LogStartsWith _) _ _ (keeps_awaitJson _ json) (fun data => ?_)
          refine triple_bind _ (LogStartsWith _) _ _
            (triple_update _ _ _ (fun s hs => hs)) (fun _ => ?_)
          cases args.onSuccess with
          | none => exact triple_pure _ _
          | some f => exact keeps_invoke _ _ _
        | false =>
          refine triple_bind _ (LogStartsWith _) _ _ (keeps_awaitJson _ json) (fun data => ?_)
          cases args.onError with
          | none =>
            exact triple_bind _ (LogStartsWith _) _ _ (triple_pure _ _)
              (fun _ => keeps_showError _ host _)
          | some g =>
            exact triple_bind _ (LogStartsWith _) _ _ (keeps_invoke _ _ _)
              (fun _ => keeps_showError _ host _)
      · cases args.onError with
        | none =>
          exact triple_bind _ (LogStartsWith _) _ _ (triple_pure _ _)
            (fun _ => keeps_showError _ host _)
        | some g =>
          exact triple_bind _ (LogStartsWith _) _ _ (keeps_invoke _ _ _)
            (fun _ => keeps_showError _ host _)
    · exact triple_update _ _ _ (fun s hs => hs)
  · refine triple_bind _ (LogStartsWith _) _ _ (fun s hs => hs) (fun _ => ?_)
    exact triple_pure _ _

theorem requestOptions_headers {V : Type} (host : Host V) (args : QueryArgs V) :
    (requestOptions host args).headers =
      if truthyString host.accessToken then
        JSObject.set (overlaidHeaders args.headers) (utf16 "Authorization")
          (utf16 "Bearer " ++ host.accessToken.getD [])
      else overlaidHeaders args.headers := by
  unfold requestOptions overlaidHeaders
  cases hb : args.body with
  | none => cases ht : truthyString host.accessToken <;> simp [Id.run, ht]
  | some b =>
    cases ht : truthyString host.accessToken <;> cases hv : host.truthy b <;>
      simp [Id.run, ht, hv]

/-- C7: the options that `redQuery` passes to `fetch` are the ones it built, and their
headers carry `Authorization: Bearer <token>` whenever a non-empty access token
is stored, whatever headers the caller gave, every other header being as in
`{ 'Content-Type': 'application/json' }` overlaid with the caller's headers;
when no token (or an empty one) is stored the headers are exactly that overlay,
in which a header of the caller wins and `Content-Type` is kept otherwise, so
that without a token and without a caller's `Authorization` none is sent. -/
theorem redQuery_bearer_token {V : Type} (host : Host V) (args : QueryArgs V) (page : Page) :
    (∃ rest, (redQuery.run host args page).2.1 =
      .fetch (requestUrl host args) (requestOptions host args) :: rest) ∧
    (∀ token, host.accessToken = some token → token ≠ [] →
      (requestOptions host args).headers.get (utf16 "Authorization") =
        some (utf16 "Bearer " ++ token) ∧
      ∀ k, k ≠ utf16 "Authorization" →
        (requestOptions host args).headers.get k = (overlaidHeaders args.headers).get k) ∧
    ((host.accessToken = none ∨ host.accessToken = some []) →
      (requestOptions host args).headers = overlaidHeaders args.headers) ∧
    (∀ k v, (args.headers.map Prod.fst).Nodup → (k, v) ∈ args.headers →
      (overlaidHeaders args.headers).get k = some v) ∧
    (∀ k, k ∉ args.headers.map Prod.fst →
      (overlaidHeaders args.headers).get k =
        JSObject.get [(utf16 "Content-Type", utf16 "application/json")] k) ∧
    ((host.accessToken = none ∨ host.accessToken = some []) →
      utf16 "Authorization" ∉ args.headers.map Prod.fst →
      (requestOptions host args).headers.get (utf16 "Authorization") = none) := by
  have hnone : (host.accessToken = none ∨ host.accessToken = some []) →
      (requestOptions host args).headers = overlaidHeaders args.headers := by
    intro h
    rw [requestOptions_headers]
    rcases h with h | h <;> rw [h] <;> rfl
  refine ⟨?_, ?_, hnone, ?_, ?_, ?_⟩
  · exact redQuery_fetch_first host args
      { page := page, log := [], isLoading := true, error := none, data := none } rfl
  · intro token htoken hne
    have htruthy : truthyString host.accessToken = true := by
      rw [htoken]
      cases token with
      | nil => exact absurd rfl hne
      | cons c rest => rfl
    rw [requestOptions_headers, htruthy, htoken]
    constructor
    · rw [if_pos rfl, JSObject.get_set, if_pos rfl]
      rfl
    · intro k hk
      rw [if_pos rfl, JSObject.get_set, if_neg hk]
  · intro k v hnodup hmem
    exact JSObject.get_spread_of_mem _ _ k v hnodup hmem
  · intro k hk
    exact JSObject.get_spread_of_not_mem _ _ k hk
  · intro h hk
    rw [hnone h]
    unfold overlaidHeaders
    rw [JSObject.get_spread_of_not_mem _ _ _ hk]
    decide

/-- Witness for C7: with the token `token` stored and a caller that sends its own
`Authorization` header, the header passed to `fetch` is `Bearer token`. -/
theorem redQuery_bearer_token_witness :
    (requestOptions (sampleHost (.rejected []))
      { path := utf16 "/users",
        headers := [(utf16 "Authorization", utf16 "Basic abc")] }).headers.get
        (utf16 "Authorization") = some (utf16 "Bearer token") :=
  ((redQuery_bearer_token (sampleHost (.rejected []))
    { path := utf16 "/users", headers := [(utf16 "Authorization", utf16 "Basic abc")] }
    samplePage).2.1 (utf16 "token") rfl (by decide)).1

theorem redQuery_settled {V : Type} (host : Host V) (args : QueryArgs V) (page : Page) (r : Nat)
    (f : V → Except V Unit) (g : JSString → Except V Unit)
    (hs : args.onSuccess = some f) (he : args.onError = some g)
    (hf : ∀ x, f x = .ok ()) (hg : ∀ m, g m = .ok ())
    (hn : page.documentQuery (utf16 "#notification") = .found r) :
    (redQuery.run host args page).2.1 =
      .fetch (requestUrl host args) (requestOptions host args) ::
        expectedEvents host (host.fetch (requestUrl host args) (requestOptions host args)) := by
  have hshow := fun m => show_error_found host.styles m page r hn
  rcases hfetch : host.fetch (requestUrl host args) (requestOptions host args) with
    reason | ⟨ok, json⟩
  · obtain ⟨sv, p2, h1⟩ := hshow (host.extractErrorMessage (.value reason))
    simp [redQuery.run, redQuery, awaitFetch, awaitJson, invoke, logEvent, showError, liftDom,
      bind, Eff.bind, Eff.update, Eff.read, pure, Eff.pure, tryCatch, tryCatchThe,
      MonadExceptOf.tryCatch, Eff.tryCatch, tryFinally, MonadFinally.tryFinally',
      Eff.tryFinally, throw, throwThe, MonadExceptOf.throw, Eff.throw, Functor.map,
      expectedEvents, hfetch, hs, he, hf, hg, h1]
  · cases ok <;> rcases json with reason | body
    · obtain ⟨sv, p2, h1⟩ := hshow (host.extractErrorMessage (.value reason))
      simp [redQuery.run, redQuery, awaitFetch, awaitJson, invoke, logEvent, showError, liftDom,
        bind, Eff.bind, Eff.update, Eff.read, pure, Eff.pure, tryCatch, tryCatchThe,
        MonadExceptOf.tryCatch, Eff.tryCatch, tryFinally, MonadFinally.tryFinally',
        Eff.tryFinally, throw, throwThe, MonadExceptOf.throw, Eff.throw, Functor.map,
        expectedEvents, hfetch, hs, he, hf, hg, h1]
    · obtain ⟨sv, p2, h1⟩ := hshow (host.extractErrorMessage (.value body))
      simp [redQuery.run, redQuery, awaitFetch, awaitJson, invoke, logEvent, showError, liftDom,
        bind, Eff.bind, Eff.update, Eff.read, pure, Eff.pure, tryCatch, tryCatchThe,
        MonadExceptOf.tryCatch, Eff.tryCatch, tryFinally, MonadFinally.tryFinally',
        Eff.tryFinally, throw, throwThe, MonadExceptOf.throw, Eff.throw, Functor.map,
        expectedEvents, hfetch, hs, he, hf, hg, h1]
    · obtain ⟨sv, p2, h1⟩ := hshow (host.extractErrorMessage (.value reason))
      simp [redQuery.run, redQuery, awaitFetch, awaitJson, invoke, logEvent, showError, liftDom,
        bind, Eff.bind, Eff.update, Eff.read, pure, Eff.pure, tryCatch, tryCatchThe,
        MonadExceptOf.tryCatch, Eff.tryCatch, tryFinally, MonadFinally.tryFinally',
        Eff.tryFinally, throw, throwThe, MonadExceptOf.throw, Eff.throw, Functor.map,
        expectedEvents, hfetch, hs, he, hf, hg, h1]
    · simp [redQuery.run, redQuery, awaitFetch, awaitJson, invoke, logEvent, showError, liftDom,
        bind, Eff.bind, Eff.update, Eff.read, pure, Eff.pure, tryCatch, tryCatchThe,
        MonadExceptOf.tryCatch, Eff.tryCatch, tryFinally, MonadFinally.tryFinally',
        Eff.tryFinally, throw, throwThe, MonadExceptOf.throw, Eff.throw, Functor.map,
        expectedEvents, hfetch, hs, he, hf, hg]

theorem expectedEvents_split {V : Type} (host : Host V) (o : FetchOutcome V) :
    ((expectedEvents host o).filter Event.isSuccessCall).length +
      ((expectedEvents host o).filter Event.isErrorCall).length = 1 ∧
    ((expectedEvents host o).filter Event.isNotification).length =
      ((expectedEvents host o).filter Event.isErrorCall).length := by
  rcases o with reason | ⟨ok, json⟩
  · exact ⟨rfl, rfl⟩
  · cases ok <;> rcases json with reason | body <;> exact ⟨rfl, rfl⟩

theorem keeps_error_showError {V : Type} (host : Host V) (m : JSString) :
    Triple (ErrorIsNull (V := V)) (showError host m) ErrorIsNull := by
  refine triple_bind _ ErrorIsNull _ _ (triple_update _ _ _ (fun s hs => hs)) (fun _ => ?_)
  refine triple_bind _ ErrorIsNull _ _
    (triple_liftDom ErrorIsNull _ (fun s page hs => hs)) (fun _ => ?_)
  exact triple_pure _ _

theorem keeps_error_invoke {V : Type} (ev : Event V) (outcome : Except V Unit) :
    Triple (ErrorIsNull (V := V)) (invoke ev outcome) ErrorIsNull := by
  refine triple_bind _ ErrorIsNull _ _ (triple_update _ _ _ (fun s hs => hs)) (fun _ => ?_)
  cases outcome with
  | ok u => exact triple_pure _ _
  | error v => exact triple_throw _ _

theorem keeps_error_awaitJson {V : Type} (json : Except V V) :
    Triple (ErrorIsNull (V := V)) (awaitJson json) ErrorIsNull := by
  cases json with
  | ok b => exact triple_pure _ _
  | error v => exact triple_throw _ _

theorem keeps_error_awaitFetch {V : Type} (host : Host V) (url : JSString) (o : RequestOptions) :
    Triple (ErrorIsNull (V := V)) (awaitFetch host url o) ErrorIsNull := by
  refine triple_bind _ ErrorIsNull _ _ (triple_update _ _ _ (fun s hs => hs)) (fun _ => ?_)
  cases host.fetch url o with
  | rejected reason => exact triple_throw _ _
  | response ok json => exact triple_pure _ _

theorem redQuery_finished {V : Type} (host : Host V) (args : QueryArgs V) :
    Triple (fun _ => True) (redQuery host args) Finished := by
  refine triple_update_bind (fun _ => True) ErrorIsNull Finished _ _ (fun s _ => rfl) ?_
  refine triple_bind ErrorIsNull Finished _ _ ?_ (fun _ => ?_)
  · refine triple_tryFinally ErrorIsNull ErrorIsNull Finished _ _ ?_ ?_
    · refine triple_tryCatch ErrorIsNull ErrorIsNull _ _ ?_ (fun err => ?_)
      · refine triple_bind _ ErrorIsNull _ _ (keeps_error_awaitFetch host _ _) (fun response => ?_)
        rcases response with ⟨ok, json⟩
        cases ok with
        | true =>
          refine triple_bind _ ErrorIsNull _ _ (keeps_error_awaitJson json) (fun data => ?_)
          refine triple_bind _ ErrorIsNull _ _
            (triple_update _ _ _ (fun s hs => hs)) (fun _ => ?_)
          cases args.onSuccess with
          | none => exact triple_pure _ _
          | some f => exact keeps_error_invoke _ _
        | false =>
          refine triple_bind _ ErrorIsNull _ _ (keeps_error_awaitJson json) (fun data => ?_)
          cases args.onError with
          | none =>
            exact triple_bind _ ErrorIsNull _ _ (triple_pure _ _)
              (fun _ => keeps_error_showError host _)
          | some g =>
            exact triple_bind _ ErrorIsNull _ _ (keeps_error_invoke _ _)
              (fun _ => keeps_error_showError host _)
      · cases args.onError with
        | none =>
          exact triple_bind _ ErrorIsNull _ _ (triple_pure _ _)
            (fun _ => keeps_error_showError host _)
        | some g =>
          exact triple_bind _ ErrorIsNull _ _ (keeps_error_invoke _ _)
            (fun _ => keeps_error_showError host _)
    · exact triple_update _ _ _ (fun s hs => ⟨hs, rfl⟩)
  · refine triple_bind _ Finished _ _ (fun s hs => hs) (fun _ => ?_)
    exact triple_pure _ _

theorem redQuery_result_of_state {V : Type} (host : Host V) (args : QueryArgs V)
    (s : QueryState V) (res : QueryResult V) (h : (redQuery host args s).1 = .ok res) :
    res = { isLoading := (redQuery host args s).2.isLoading
            error := (redQuery host args s).2.error
            data := (redQuery host args s).2.data } := by
  simp only [redQuery, bind, Eff.bind, Eff.update, Eff.read, pure, Eff.pure] at h ⊢
  split at h
  · rename_i heq
    simp only [heq]
    simp at h
    rw [← h]
  · simp at h

/-- C5 (counterexample): with both callbacks given, (1) an ok response whose
`onSuccess` throws gets `onSuccess` and then `onError` and the notification;
(2) a non-ok response whose `onError` throws on the first message gets `onError`
twice; (3) on a page without the notification element a non-ok response gets
`onError` twice and the promise rejects. -/
theorem redQuery_callback_split_counterexample :
    (redQuery.run (sampleHost (.response true (.ok (utf16 "body"))))
      { path := utf16 "/users", onSuccess := some (fun _ => .error (utf16 "boom")),
        onError := some (fun _ => .ok ()) } samplePage).2.1.tail =
      [.onSuccess (utf16 "body"), .onError (utf16 "boom"), .showError (utf16 "boom")] ∧
    (redQuery.run (sampleHost (.response false (.ok (utf16 "denied"))))
      { path := utf16 "/users", onSuccess := some (fun _ => .ok ()),
        onError := some (fun m => if m = utf16 "denied" then .error (utf16 "boom") else .ok ()) }
      samplePage).2.1.tail =
      [.onError (utf16 "denied"), .onError (utf16 "boom"), .showError (utf16 "boom")] ∧
    (redQuery.run (sampleHost (.response false (.ok (utf16 "denied"))))
      { path := utf16 "/users", onSuccess := some (fun _ => .ok ()),
        onError := some (fun _ => .ok ()) } barePage).2.1.tail =
      [.onError (utf16 "denied"), .showError (utf16 "denied"),
        .onError (utf16 "Element not found: #notification"),
        .showError (utf16 "Element not found: #notification")] ∧
    (redQuery.run (sampleHost (.response false (.ok (utf16 "denied"))))
      { path := utf16 "/users", onSuccess := some (fun _ => .ok ()),
        onError := some (fun _ => .ok ()) } barePage).1 =
      .error (.js (.error (utf16 "Element not found: #notification"))) :=
  ⟨rfl, rfl, rfl, rfl⟩

/-- C5 (amended): when both callbacks are given, neither of them throws and the
notification element is on the page, then for every outcome of `fetch` and of
`response.json()` the events of `redQuery` are the `fetch` call followed by
`onSuccess` with the parsed body for an ok response with a body that parses,
and otherwise by `onError` and the error notification with the extracted
message; so exactly one callback is called, once, and the notification is shown
exactly when `onError` is called. -/
theorem redQuery_callback_split {V : Type} (host : Host V) (args : QueryArgs V) (page : Page)
    (r : Nat) (f : V → Except V Unit) (g : JSString → Except V Unit)
    (hs : args.onSuccess = some f) (he : args.onError = some g)
    (hf : ∀ x, f x = .ok ()) (hg : ∀ m, g m = .ok ())
    (hn : page.documentQuery (utf16 "#notification") = .found r) :
    (redQuery.run host args page).2.1 =
      .fetch (requestUrl host args) (requestOptions host args) ::
        expectedEvents host (host.fetch (requestUrl host args) (requestOptions host args)) ∧
    ((redQuery.run host args page).2.1.filter Event.isSuccessCall).length +
      ((redQuery.run host args page).2.1.filter Event.isErrorCall).length = 1 ∧
    ((redQuery.run host args page).2.1.filter Event.isNotification).length =
      ((redQuery.run host args page).2.1.filter Event.isErrorCall).length := by
  have hlog := redQuery_settled host args page r f g hs he hf hg hn
  have hsplit := expectedEvents_split host
    (host.fetch (requestUrl host args) (requestOptions host args))
  refine ⟨hlog, ?_, ?_⟩
  · rw [hlog]
    simpa [List.filter_cons, Event.isSuccessCall, Event.isErrorCall] using hsplit.1
  · rw [hlog]
    simpa [List.filter_cons, Event.isNotification, Event.isErrorCall] using hsplit.2

/-- Witness for C5: a non-ok response with the body `denied`, two callbacks that
return, on the sample page. -/
theorem redQuery_callback_split_witness :
    (redQuery.run (sampleHost (.response false (.ok (utf16 "denied"))))
      { path := utf16 "/users", onSuccess := some (fun _ => .ok ()),
        onError := some (fun _ => .ok ()) } samplePage).2.1.tail =
      [.onError (utf16 "denied"), .showError (utf16 "denied")] :=
  congrArg List.tail
    (redQuery_callback_split (sampleHost (.response false (.ok (utf16 "denied"))))
      { path := utf16 "/users", onSuccess := some (fun _ => .ok ()),
        onError := some (fun _ => .ok ()) } samplePage 1 (fun _ => .ok ()) (fun _ => .ok ())
      rfl rfl (fun _ => rfl) (fun _ => rfl) rfl).1

/-- C6 (the code at the failing input): the variable `error` is never assigned, so
every object that `redQuery` resolves with has `error` equal to `null` (and
`isLoading` equal to `false`); for a non-ok response with the error body
`Unauthorized` the message `Unauthorized` is extracted and shown, and the
object returned is `{ isLoading: false, error: null, data: null }`. -/
theorem redQuery_error_always_null {V : Type} (host : Host V) (args : QueryArgs V)
    (page : Page) (res : QueryResult V) (h : (redQuery.run host args page).1 = .ok res) :
    res.error = none ∧ res.isLoading = false ∧
    (redQuery.run (sampleHost (.response false (.ok (utf16 "Unauthorized"))))
      { path := utf16 "/users" } samplePage).1 =
      .ok { isLoading := false, error := none, data := none } ∧
    (redQuery.run (sampleHost (.response false (.ok (utf16 "Unauthorized"))))
      { path := utf16 "/users" } samplePage).2.1.tail = [.showError (utf16 "Unauthorized")] := by
  have hres := redQuery_result_of_state host args
    { page := page, log := [], isLoading := true, error := none, data := none } res h
  have hfin := redQuery_finished host args
    { page := page, log := [], isLoading := true, error := none, data := none } trivial
  refine ⟨?_, ?_, rfl, rfl⟩
  · rw [hres]; exact hfin.1
  · rw [hres]; exact hfin.2

/-- Witness for C6 at the non-ok response with the error body `Unauthorized`. -/
theorem redQuery_error_always_null_witness :
    (redQuery.run (sampleHost (.response false (.ok (utf16 "Unauthorized"))))
      { path := utf16 "/users" } samplePage).1 =
      .ok { isLoading := false, error := none, data := none } ∧
    ({ isLoading := false, error := none, data := none } : QueryResult JSString).error = none :=
  ⟨rfl, (redQuery_error_always_null (sampleHost (.response false (.ok (utf16 "Unauthorized"))))
    { path := utf16 "/users" } samplePage
    { isLoading := false, error := none, data := none } rfl).1⟩

/-! ## `NotificationService.show` -/

theorem show_invalid_type (styles : Styles) (self : NotificationService)
    (type message : JSString) (page : Page)
    (h1 : type ≠ utf16 "success") (h2 : type ≠ utf16 "error") :
    self.show styles type message page = (.error (.error invalidTypeMessage), page) := by
  have e1 : (type == utf16 "success") = false := by simpa using h1
  have e2 : (type == utf16 "error") = false := by simpa using h2
  have hc : [utf16 "success", utf16 "error"].contains type = false := by
    simp [List.contains, List.elem, e1, e2]
  simp only [NotificationService.show, bind, Eff.bind, hc]
  rfl

theorem show_valid_type (styles : Styles) (self : NotificationService)
    (type message : JSString) (page : Page)
    (hvalid : type = utf16 "success" ∨ type = utf16 "error") :
    self.show styles type message page =
      match page.documentQuery (utf16 "#notification") with
      | .invalid => (.error (.syntaxError (utf16 "#notification")), page)
      | .noMatch =>
        (.error (.error (utf16 "Element not found: " ++ utf16 "#notification")), page)
      | .found r =>
        ((RQuery.mk r).text (some message) >>= fun _ =>
          (RQuery.mk r).addClass (.one (notificationClass styles type)) >>= fun _ =>
          self.setTimeout_ (r, notificationClass styles type) 3000) page := by
  have hc : [utf16 "success", utf16 "error"].contains type = true := by
    rcases hvalid with h | h <;> subst h <;> decide
  have h1 := dollarR_string page (utf16 "#notification")
  simp only [NotificationService.show, bind, Eff.bind, hc]
  simp only [Bool.not_true, Bool.false_eq_true, if_false]
  cases hq : page.documentQuery (utf16 "#notification") with
  | invalid =>
    rw [hq] at h1
    simp only [pure, Eff.bind, Eff.pure, h1]
  | noMatch =>
    rw [hq] at h1
    simp only [pure, Eff.bind, Eff.pure, h1]
  | found r =>
    rw [hq] at h1
    simp only [pure, Eff.bind, Eff.pure, h1]
    rfl

theorem mem_insertTimer {A : Type} (t : Timer A) (l : List (Timer A)) :
    t ∈ insertTimer t l := by
  induction l with
  | nil => simp [insertTimer]
  | cons u us ih =>
    unfold insertTimer
    split
    · exact List.mem_cons_of_mem _ ih
    · simp

theorem setTimeout__effect (self : NotificationService) (callback : Nat × JSString)
    (duration : Nat) (page : Page) :
    ∃ svc page2, self.setTimeout_ callback duration page = (.ok svc, page2) ∧
      page2.elements = page.elements ∧
      (⟨page.timers.nextId, page.timers.now + duration, callback⟩ : Timer (Nat × JSString)) ∈
        page2.timers.pending := by
  refine ⟨_, _, rfl, rfl, ?_⟩
  rcases hself : self.timeout with _ | i
  · simp only [setTimeout]
    exact mem_insertTimer _ _
  · by_cases hi : i = 0
    · subst hi
      simp only [setTimeout]
      exact mem_insertTimer _ _
    · simp only [setTimeout, hi, ne_eq, not_false_eq_true, if_true, clearTimeout]
      exact mem_insertTimer _ _

theorem show_found (styles : Styles) (self : NotificationService) (type message : JSString)
    (page : Page) (r : Nat)
    (hvalid : type = utf16 "success" ∨ type = utf16 "error")
    (hq : page.documentQuery (utf16 "#notification") = .found r) :
    ∃ svc page2, self.show styles type message page = (.ok svc, page2) ∧
      (page2.elements r).textContent = page.textOfMarkup message ∧
      notificationClass styles type ∈ (page2.elements r).classList ∧
      (∀ r2, r2 ≠ r → page2.elements r2 = page.elements r2) ∧
      (⟨page.timers.nextId, page.timers.now + 3000, (r, notificationClass styles type)⟩ :
        Timer (Nat × JSString)) ∈ page2.timers.pending := by
  rw [show_valid_type styles self type message page hvalid, hq]
  have hchain :
      ((RQuery.mk r).text (some message) >>= fun _ =>
        (RQuery.mk r).addClass (.one (notificationClass styles type)) >>= fun _ =>
        self.setTimeout_ (r, notificationClass styles type) 3000) page =
      self.setTimeout_ (r, notificationClass styles type) 3000
        ((RQuery.mk r).addClass (.one (notificationClass styles type))
          ((RQuery.mk r).text (some message) page).2).2 := rfl
  obtain ⟨svc, page2, heq, hel, hmem⟩ :=
    setTimeout__effect self (r, notificationClass styles type) 3000
      ((RQuery.mk r).addClass (.one (notificationClass styles type))
        ((RQuery.mk r).text (some message) page).2).2
  refine ⟨svc, page2, ?_, ?_, ?_, ?_, hmem⟩
  · show _ = _
    rw [← heq]
    exact hchain
  · rw [hel]
    simp [RQuery.addClass, RQuery.text, classListAdd, setInnerHTML, Eff.update, bind, Eff.bind,
      pure, Eff.pure]
  · rw [hel]
    simp only [RQuery.addClass, RQuery.text, classListAdd, setInnerHTML, Eff.update, bind,
      Eff.bind, pure, Eff.pure, if_true]
    split
    · assumption
    · simp
  · intro r2 hr2
    rw [hel]
    simp [RQuery.addClass, RQuery.text, classListAdd, setInnerHTML, Eff.update, bind, Eff.bind,
      pure, Eff.pure, hr2]

theorem show_throw_keeps_page (styles : Styles) (self : NotificationService)
    (type message : JSString) (page : Page) (e : JSError)
    (h : (self.show styles type message page).1 = .error e) :
    (self.show styles type message page).2 = page := by
  by_cases hvalid : type = utf16 "success" ∨ type = utf16 "error"
  · cases hq : page.documentQuery (utf16 "#notification") with
    | invalid => rw [show_valid_type styles self type message page hvalid, hq]
    | noMatch => rw [show_valid_type styles self type message page hvalid, hq]
    | found r =>
      obtain ⟨svc, page2, heq, _⟩ := show_found styles self type message page r hvalid hq
      rw [heq] at h
      cases h
  · have h1 : type ≠ utf16 "success" := fun e => hvalid (Or.inl e)
    have h2 : type ≠ utf16 "error" := fun e => hvalid (Or.inr e)
    rw [show_invalid_type styles self type message page h1 h2]

/-- C11 (the code, and the failing input): `show(type, message)` throws `Invalid
notification type. Allowed types: success, error` exactly when `type` is
neither `success` nor `error`; whenever it throws, the page (the element, its
classes, the timers) is left as it was; and when it returns, the notification
element carries the class of the type and a timer for removing it is pending,
but the text of the element is the text of the markup that `message` parses
to, not `message`: after `show('error', '<b>x</b>')` on the sample page the
text of the element is `x`. -/
theorem show_behaviour (styles : Styles) (self : NotificationService)
    (type message : JSString) (page : Page) :
    ((self.show styles type message page).1 = .error (.error invalidTypeMessage) ↔
      (type ≠ utf16 "success" ∧ type ≠ utf16 "error")) ∧
    (∀ e, (self.show styles type message page).1 = .error e →
      (self.show styles type message page).2 = page) ∧
    (∀ svc, (self.show styles type message page).1 = .ok svc →
      ∃ r, page.documentQuery (utf16 "#notification") = .found r ∧
        (((self.show styles type message page).2).elements r).textContent =
          page.textOfMarkup message ∧
        notificationClass styles type ∈
          (((self.show styles type message page).2).elements r).classList ∧
        (⟨page.timers.nextId, page.timers.now + 3000, (r, notificationClass styles type)⟩ :
          Timer (Nat × JSString)) ∈ ((self.show styles type message page).2).timers.pending) ∧
    (((NotificationService.new.show { success := utf16 "success", error := utf16 "error" }
        (utf16 "error") (utf16 "<b>x</b>") samplePage).2).elements 1).textContent = utf16 "x" ∧
    utf16 "x" ≠ utf16 "<b>x</b>" := by
  refine ⟨?_, fun e h => show_throw_keeps_page styles self type message page e h, ?_,
    rfl, by decide⟩
  · constructor
    · intro h
      by_contra hcon
      have hvalid : type = utf16 "success" ∨ type = utf16 "error" := by
        by_cases h1 : type = utf16 "success"
        · exact Or.inl h1
        · by_cases h2 : type = utf16 "error"
          · exact Or.inr h2
          · exact absurd ⟨h1, h2⟩ hcon
      cases hq : page.documentQuery (utf16 "#notification") with
      | invalid =>
        rw [show_valid_type styles self type message page hvalid, hq] at h
        cases h
      | noMatch =>
        rw [show_valid_type styles self type message page hvalid, hq] at h
        have hne : utf16 "Element not found: " ++ utf16 "#notification" ≠ invalidTypeMessage := by
          decide
        exact hne (by simpa using h)
      | found r =>
        obtain ⟨svc, page2, heq, _⟩ := show_found styles self type message page r hvalid hq
        rw [heq] at h
        cases h
    · intro h
      rw [show_invalid_type styles self type message page h.1 h.2]
  · intro svc h
    have hvalid : type = utf16 "success" ∨ type = utf16 "error" := by
      by_contra hcon
      have h1 : type ≠ utf16 "success" := fun e => hcon (Or.inl e)
      have h2 : type ≠ utf16 "error" := fun e => hcon (Or.inr e)
      rw [show_invalid_type styles self type message page h1 h2] at h
      cases h
    cases hq : page.documentQuery (utf16 "#notification") with
    | invalid =>
      rw [show_valid_type styles self type message page hvalid, hq] at h
      cases h
    | noMatch =>
      rw [show_valid_type styles self type message page hvalid, hq] at h
      cases h
    | found r =>
      obtain ⟨svc2, page2, heq, htext, hclass, _, htimer⟩ :=
        show_found styles self type message page r hvalid hq
      refine ⟨r, rfl, ?_, ?_, ?_⟩ <;> rw [heq]
      · exact htext
      · exact hclass
      · exact htimer

/-- Witness for C11 on the sample page: `show('warning', 'x')` throws the error of
the invalid type, and leaves the page as it was. -/
theorem show_behaviour_witness :
    (NotificationService.new.show { success := utf16 "success", error := utf16 "error" }
      (utf16 "warning") (utf16 "x") samplePage).1 = .error (.error invalidTypeMessage) ∧
    (NotificationService.new.show { success := utf16 "success", error := utf16 "error" }
      (utf16 "warning") (utf16 "x") samplePage).2 = samplePage :=
  ⟨(show_behaviour { success := utf16 "success", error := utf16 "error" } NotificationService.new
      (utf16 "warning") (utf16 "x") samplePage).1.mpr ⟨by decide, by decide⟩,
    (show_behaviour { success := utf16 "success", error := utf16 "error" } NotificationService.new
      (utf16 "warning") (utf16 "x") samplePage).2.1 (.error invalidTypeMessage) rfl⟩

end MaestroBank
